import Mathlib

/-
Verification of the LMOST_FOR_LOOP mini-compiler (lexer, recursive-descent
parser, semantic analyzer, TAC generator, TAC optimizer) against its
natural-language specification.  Every definition below is a shallow
embedding of the corresponding Python code in the repository:

  * Lexical_Analyzer.py : token_specification / tokenize
  * Syntax_analyzer.py  : SyntaxAnalyzer (recursive descent, modelled with fuel)
  * Semantic_analyzer.py: SemanticAnalyzer
  * tac_generator.py    : TACGenerator
  * tac_optimizer.py    : TACOptimizer

Modelling conventions:
  * Python runtime values that can appear as instruction operands (int,
    float, bool, str) are the inductive `Value`.  Python float arithmetic
    is modelled with exact rationals; no claim below depends on IEEE
    rounding.  Python `==` (which identifies 2, 2.0 and True ≈ 1, and never
    identifies a number with a string) is `pyEq`; Python truthiness is
    `truthy`.
  * Raised exceptions are `Except.error`.
  * Python sets/dicts keyed by values are association lists with
    `pyEq`-based membership, faithful because Python hashing agrees with
    `==` on numbers and strings.
-/

namespace Compiler

/-- Python scalar values that occur as TAC operands and table entries. -/
inductive Value where
  | vint (n : Int)
  | vfloat (q : ℚ)
  | vbool (b : Bool)
  | vstr (s : String)
deriving DecidableEq, Repr

/-- Numeric reading of a value; Python `bool` is an `int` subtype (True ≈ 1).
The string case is junk and only used under an `isNum` guard. -/
def qOf : Value → ℚ
  | .vint n => (n : ℚ)
  | .vfloat q => q
  | .vbool b => if b then 1 else 0
  | .vstr _ => 0

/-- Python `isinstance(v, (int, float))`, which is true for bool as well. -/
def isNum : Value → Bool
  | .vstr _ => false
  | _ => true

/-- Python `isinstance(v, int)` (true for int and bool). -/
def isIntish : Value → Bool
  | .vint _ => true
  | .vbool _ => true
  | _ => false

/-- Integer reading, used for int ⋄ int arithmetic. -/
def intOf : Value → Int
  | .vint n => n
  | .vbool b => if b then 1 else 0
  | _ => 0

/-- Python `==` on scalar values: numbers (and bools) compare by numeric
value, strings compare by text, a number never equals a string. -/
def pyEq (a b : Value) : Bool :=
  match a, b with
  | .vstr s, .vstr t => decide (s = t)
  | .vstr _, _ => false
  | _, .vstr _ => false
  | a, b => decide (qOf a = qOf b)

/-- Python truthiness of a scalar value. -/
def truthy : Value → Bool
  | .vint n => decide (n ≠ 0)
  | .vfloat q => decide (q ≠ 0)
  | .vbool b => b
  | .vstr s => decide (s ≠ "")

/-- Canonical key: `pyEq` is exactly equality of these keys. -/
def keyOf : Value → ℚ ⊕ String
  | .vstr s => .inr s
  | v => .inl (qOf v)

theorem pyEq_eq_keyOf (a b : Value) : pyEq a b = decide (keyOf a = keyOf b) := by
  cases a <;> cases b <;> simp [pyEq, keyOf]

theorem pyEq_refl (a : Value) : pyEq a a = true := by
  rw [pyEq_eq_keyOf]; simp

theorem pyEq_symm (a b : Value) : pyEq a b = pyEq b a := by
  rw [pyEq_eq_keyOf, pyEq_eq_keyOf]
  simp [eq_comm]

theorem pyEq_trans {a b c : Value} (h1 : pyEq a b = true) (h2 : pyEq b c = true) :
    pyEq a c = true := by
  rw [pyEq_eq_keyOf] at *
  simp only [decide_eq_true_eq] at *
  exact h1.trans h2

/-- Truthiness is determined by the canonical key. -/
def truthyKey : ℚ ⊕ String → Bool
  | .inl q => decide (q ≠ 0)
  | .inr s => decide (s ≠ "")

theorem truthy_eq_keyOf (v : Value) : truthy v = truthyKey (keyOf v) := by
  cases v with
  | vint n => simp [truthy, keyOf, qOf, truthyKey]
  | vfloat q => rfl
  | vbool b => cases b <;> rfl
  | vstr s => rfl

theorem pyEq_truthy {a b : Value} (h : pyEq a b = true) : truthy a = truthy b := by
  rw [pyEq_eq_keyOf] at h
  simp only [decide_eq_true_eq] at h
  rw [truthy_eq_keyOf, truthy_eq_keyOf, h]

/-- A TAC quadruple, the dict `{'op': …, 'arg1': …, 'arg2': …, 'result': …}`
built by `TACGenerator.add_instruction`.  `none` is Python `None`. -/
structure Instr where
  op : String
  arg1 : Option Value := none
  arg2 : Option Value := none
  result : Option Value := none
deriving DecidableEq, Repr

/-- Python truthiness of `instr.get(key)`. -/
def truthyO : Option Value → Bool
  | some v => truthy v
  | none => false

/-- Membership of a value in a Python set of values. -/
def pyMem (v : Value) (u : List Value) : Bool := u.any (fun w => pyEq v w)

/-- Python `x in used` where `x` may be `None` (never a member here). -/
def pyMemO : Option Value → List Value → Bool
  | some v, u => pyMem v u
  | none, _ => false

theorem pyMem_congr {v w : Value} (h : pyEq v w = true) (u : List Value) :
    pyMem v u = pyMem w u := by
  rw [pyEq_eq_keyOf] at h
  simp only [decide_eq_true_eq] at h
  simp only [pyMem]
  congr 1
  funext x
  rw [pyEq_eq_keyOf, pyEq_eq_keyOf, h]

theorem pyMem_append (v : Value) (u1 u2 : List Value) :
    pyMem v (u1 ++ u2) = (pyMem v u1 || pyMem v u2) := by
  simp [pyMem, List.any_append]

theorem pyMem_truthy {v : Value} {u : List Value}
    (hall : ∀ w ∈ u, truthy w = true) (h : pyMem v u = true) : truthy v = true := by
  simp only [pyMem, List.any_eq_true] at h
  obtain ⟨w, hw, he⟩ := h
  rw [pyEq_truthy he]
  exact hall w hw

/-! ## TACOptimizer (tac_optimizer.py)

`optimize` runs, once each and in this order: constant folding, constant
propagation, common-subexpression elimination, strength reduction, dead
code elimination.  Constant folding evaluates the arithmetic with Python
`eval` on an expression string, which raises `ZeroDivisionError` on a
literal zero divisor; that raise is the `Except.error` below. -/

namespace TACOptimizer

/-- The one exception `optimize` can raise: Python `ZeroDivisionError`
from `eval` inside `constant_folding`. -/
inductive OptErr where
  | zeroDivision
deriving DecidableEq, Repr

/-- Python `isinstance(x, (int, float))` on an operand slot. -/
def isNumO : Option Value → Bool
  | some v => isNum v
  | none => false

/-- The arithmetic the source performs via
`eval(f"{arg1} {op_symbol} {arg2}")` on two numeric literals: `+ - *` stay
int when both operands are int-ish (bool counts as int), otherwise give a
float; `/` is true division, giving a float or raising
`ZeroDivisionError`.  Guarded by `isNum` on both sides. -/
def pyArith (op : String) (a b : Value) : Except OptErr Value :=
  if op == "DIV" then
    if qOf b = 0 then .error .zeroDivision
    else .ok (.vfloat (qOf a / qOf b))
  else
    let f : ℚ → ℚ → ℚ := if op == "ADD" then (· + ·) else if op == "SUB" then (· - ·) else (· * ·)
    let g : Int → Int → Int := if op == "ADD" then (· + ·) else if op == "SUB" then (· - ·) else (· * ·)
    if isIntish a && isIntish b then .ok (.vint (g (intOf a) (intOf b)))
    else .ok (.vfloat (f (qOf a) (qOf b)))

/-- One instruction of `constant_folding`: an `ADD/SUB/MUL/DIV` whose two
operands are numeric literals is computed and replaced by an `ASSIGN`;
anything else passes through unchanged. -/
def foldStep (i : Instr) : Except OptErr Instr :=
  if (i.op == "ADD" || i.op == "SUB" || i.op == "MUL" || i.op == "DIV")
      && isNumO i.arg1 && isNumO i.arg2 then
    match i.arg1, i.arg2 with
    | some a, some b =>
        (pyArith i.op a b).map (fun v => { op := "ASSIGN", arg1 := some v, arg2 := none, result := i.result })
    | _, _ => .ok i
  else .ok i

/-- `TACOptimizer.constant_folding`: sequential, the first raise aborts. -/
def constant_folding : List Instr → Except OptErr (List Instr)
  | [] => .ok []
  | i :: rest =>
      match foldStep i with
      | .error e => .error e
      | .ok i2 =>
          match constant_folding rest with
          | .error e => .error e
          | .ok rest2 => .ok (i2 :: rest2)

/-- First pass of `constant_propagation`: walk the sequence recording, for
`ASSIGN` instructions with a truthy result, the first assigned value per
variable (`assigned_once`, an insertion-ordered dict) and the set of
variables seen assigned again (`reassigned`). -/
def propStep (p : List (Value × Option Value) × List Value) (i : Instr) :
    List (Value × Option Value) × List Value :=
  if i.op == "ASSIGN" then
    match i.result with
    | some v =>
        if truthy v then
          if p.1.any (fun q => pyEq v q.1) then (p.1, v :: p.2)
          else (p.1 ++ [(v, i.arg1)], p.2)
        else p
    | none => p
  else p

def propPass1 (tac : List Instr) : List (Value × Option Value) × List Value :=
  tac.foldl propStep ([], [])

/-- `const_vals`: the entries of `assigned_once` whose variable is not in
`reassigned`. -/
def constVals (tac : List Instr) : List (Value × Option Value) :=
  let p := propPass1 tac
  p.1.filter (fun q => !(pyMem q.1 p.2))

/-- Substitution into one operand slot: only a `str`-typed operand that is
a key of `const_vals` is replaced (`isinstance(val, str) and val in
const_vals`). -/
def substArg (cv : List (Value × Option Value)) (a : Option Value) : Option Value :=
  match a with
  | some (.vstr s) =>
      match cv.find? (fun q => pyEq (.vstr s) q.1) with
      | some q => q.2
      | none => a
  | _ => a

def substInstr (cv : List (Value × Option Value)) (i : Instr) : Instr :=
  { i with arg1 := substArg cv i.arg1, arg2 := substArg cv i.arg2 }

/-- `TACOptimizer.constant_propagation`: pass 1 collects candidates, pass 2
copies every instruction, substituting into `arg1` and `arg2`. -/
def constant_propagation (tac : List Instr) : List Instr :=
  tac.map (substInstr (constVals tac))

/-- Key equality for the CSE dict: a Python tuple `(op, arg1, arg2)`
compares componentwise by `==`. -/
def cseKeyEq (k1 k2 : String × Option Value × Option Value) : Bool :=
  k1.1 == k2.1
    && (match k1.2.1, k2.2.1 with
        | some a, some b => pyEq a b
        | none, none => true
        | _, _ => false)
    && (match k1.2.2, k2.2.2 with
        | some a, some b => pyEq a b
        | none, none => true
        | _, _ => false)

/-- `TACOptimizer.common_subexpression_elimination`. -/
def cseAux (m : List ((String × Option Value × Option Value) × Option Value)) :
    List Instr → List Instr
  | [] => []
  | i :: rest =>
      if i.op == "ADD" || i.op == "SUB" || i.op == "MUL" || i.op == "DIV" then
        let key := (i.op, i.arg1, i.arg2)
        match m.find? (fun q => cseKeyEq key q.1) with
        | some q => { op := "ASSIGN", arg1 := q.2, arg2 := none, result := i.result } :: cseAux m rest
        | none => i :: cseAux (m ++ [(key, i.result)]) rest
      else i :: cseAux m rest

def common_subexpression_elimination (tac : List Instr) : List Instr :=
  cseAux [] tac

/-- `TACOptimizer.strength_reduction`: `MUL x, 2` (Python `arg2 == 2`, so
`2`, `2.0` alike) becomes `ADD x, x`. -/
def strength_reduction (tac : List Instr) : List Instr :=
  tac.map (fun i =>
    if i.op == "MUL" && (match i.arg2 with | some v => pyEq v (.vint 2) | none => false) then
      { op := "ADD", arg1 := i.arg1, arg2 := i.arg1, result := i.result }
    else i)

/-- Python `used.add(x)` under an `if x:` truthiness guard. -/
def pushT (u : List Value) (a : Option Value) : List Value :=
  match a with
  | some v => if truthy v then u ++ [v] else u
  | none => u

/-- The forward pass of `dead_code_elimination`: every truthy `arg1` and
`arg2` of every instruction enters the use-set, plus the truthy `result`
of `IF_FALSE`/`GOTO` instructions. -/
def used0Step (u : List Value) (i : Instr) : List Value :=
  let u2 := pushT (pushT u i.arg1) i.arg2
  if i.op == "IF_FALSE" || i.op == "GOTO" then pushT u2 i.result else u2

def used0 (tac : List Instr) : List Value :=
  tac.foldl used0Step []

def isCF (op : String) : Bool :=
  op == "LABEL" || op == "GOTO" || op == "IF_FALSE"

/-- One step of the backward scan of `dead_code_elimination`
(`new_tac.insert(0, instr)` prepends, so the accumulator keeps original
order). -/
def dceStep (p : List Instr × List Value) (i : Instr) : List Instr × List Value :=
  if isCF i.op || (truthyO i.result && pyMemO i.result p.2) then
    (i :: p.1, pushT (pushT p.2 i.arg1) i.arg2)
  else if i.op == "ASSIGN" && pyMemO i.result p.2 then
    (i :: p.1, pushT p.2 i.arg1)
  else p

/-- `TACOptimizer.dead_code_elimination`. -/
def dead_code_elimination (tac : List Instr) : List Instr :=
  (tac.reverse.foldl dceStep ([], used0 tac)).1

/-- `TACOptimizer.optimize`: the five passes, once each, in order; the
`ZeroDivisionError` from folding propagates out. -/
def optimize (tac : List Instr) : Except OptErr (List Instr) :=
  (constant_folding tac).map (fun t =>
    dead_code_elimination (strength_reduction (common_subexpression_elimination (constant_propagation t))))

end TACOptimizer

/-! ## Lexer (Lexical_Analyzer.py)

`tokenize` repeatedly matches, at the current position, the alternation of
the patterns of `token_specification` in their listed order (Python `re`
alternation is first-match, not longest-match):

  KEYWORD  \b(for|int|float)\b
  ID       \b[a-zA-z_][a-zA-Z_0-9]*\b    (A-z: the class also spans 91-96)
  CONSTANT \b\d+\b
  OP       the class of =, +, < and the range from star to slash (42-47)
  EQ ==    NE !=    LE <=    GE >=
  SYMBOL   braces, parentheses, semicolon
  SKIP     blanks and tabs    NEWLINE    COMMENT (double slash to end of line)

`\b` needs one character of left context, carried as `prev` (the character
before the current position).  Word characters are modelled as ASCII
alphanumerics plus underscore (the inputs of interest are ASCII). -/

namespace Lexer

/-- A token as `tokenize` yields it: `(kind, lexeme)`. -/
abbrev Token := String × String

def wordChar (c : Char) : Bool := c.isAlpha || c.isDigit || c == '_'

def isWordO : Option Char → Bool
  | some c => wordChar c
  | none => false

/-- A `\b` assertion between the character on the left and the one on the
right (either may be absent at the ends of the input). -/
def boundary (l r : Option Char) : Bool := isWordO l != isWordO r

/-- First-character class of the ID pattern, `[a-zA-z_]`: the ranges a-z
and A-z together are exactly the codepoints 65-122. -/
def idStart (c : Char) : Bool := 65 ≤ c.toNat && c.toNat ≤ 122

/-- The OP character class: `=`, `+`, `<` and the range 42-47 (star,
plus, comma, minus, dot, slash) that the source writes as a range from
star to slash. -/
def opChar (c : Char) : Bool :=
  c == '=' || c == '+' || c == '<' || (42 ≤ c.toNat && c.toNat ≤ 47)

def symChar (c : Char) : Bool :=
  c == Char.ofNat 123 || c == Char.ofNat 125 || c == '(' || c == ')' || c == ';'

/-- One keyword alternative `\b kw \b` at the current position. -/
def kwAt (kw : List Char) (prev : Option Char) (l : List Char) : Bool :=
  boundary prev l.head? && kw.isPrefixOf l && !(isWordO (l.drop kw.length).head?)

/-- Try the KEYWORD branch, alternatives in source order. -/
def matchKeyword (prev : Option Char) (l : List Char) : Option (String × List Char) :=
  if kwAt "for".toList prev l then some ("for", l.drop 3)
  else if kwAt "int".toList prev l then some ("int", l.drop 3)
  else if kwAt "float".toList prev l then some ("float", l.drop 5)
  else none

/-- Try the ID branch `\b[a-zA-z_][a-zA-Z_0-9]*\b`.  The `*` is greedy; a
maximal run of word characters always satisfies the trailing `\b` when it
is nonempty, and when it is empty the `\b` needs the class character
itself to be a word character. -/
def matchId (prev : Option Char) : List Char → Option (String × List Char)
  | [] => none
  | c :: cs =>
      if idStart c && boundary prev (some c) then
        let run := cs.takeWhile wordChar
        if !run.isEmpty || wordChar c then
          some (String.mk (c :: run), cs.drop run.length)
        else none
      else none

/-- Try the CONSTANT branch `\b\d+\b`: a maximal digit run whose follower
is not a word character (shorter runs can never satisfy the trailing
`\b`, so backtracking cannot save the branch). -/
def matchConstant (prev : Option Char) : List Char → Option (String × List Char)
  | [] => none
  | c :: cs =>
      if c.isDigit && boundary prev (some c) then
        let run := cs.takeWhile Char.isDigit
        if isWordO (cs.drop run.length).head? then none
        else some (String.mk (c :: run), cs.drop run.length)
      else none

/-- Try a fixed two-character pattern such as `==`. -/
def matchPair (a b : Char) : List Char → Option (String × List Char)
  | x :: y :: rest => if x == a && y == b then some (String.mk [a, b], rest) else none
  | _ => none

/-- Try the alternation of `token_specification` at one position, in the
listed order; `some (kind, lexeme, rest)` on the first branch that
matches. -/
def matchTok (prev : Option Char) (l : List Char) : Option (String × String × List Char) :=
  match matchKeyword prev l with
  | some (s, rest) => some ("KEYWORD", s, rest)
  | none =>
  match matchId prev l with
  | some (s, rest) => some ("ID", s, rest)
  | none =>
  match matchConstant prev l with
  | some (s, rest) => some ("CONSTANT", s, rest)
  | none =>
  match l with
  | [] => none
  | c :: cs =>
      if opChar c then some ("OP", c.toString, cs)
      else match matchPair '=' '=' l with
      | some (s, rest) => some ("EQ", s, rest)
      | none =>
      match matchPair '!' '=' l with
      | some (s, rest) => some ("NE", s, rest)
      | none =>
      match matchPair '<' '=' l with
      | some (s, rest) => some ("LE", s, rest)
      | none =>
      match matchPair '>' '=' l with
      | some (s, rest) => some ("GE", s, rest)
      | none =>
      if symChar c then some ("SYMBOL", c.toString, cs)
      else if c == ' ' || c == '\t' then
        let run := cs.takeWhile (fun d => d == ' ' || d == '\t')
        some ("SKIP", String.mk (c :: run), cs.drop run.length)
      else if c == '\n' then some ("NEWLINE", "\n", cs)
      else match cs with
      | d :: ds => if c == '/' && d == '/' then
            let run := ds.takeWhile (fun e => e != '\n')
            some ("COMMENT", String.mk ('/' :: '/' :: run), ds.drop run.length)
          else none
      | [] => none

def skipKind (k : String) : Bool := k == "SKIP" || k == "COMMENT" || k == "NEWLINE"

/-- The `tokenize` loop.  A raise discards the collected tokens; fuel only
bounds the recursion (each match consumes at least one character). -/
def tokenizeAux : Nat → List Token → Option Char → List Char → Except String (List Token)
  | _, acc, _, [] => .ok acc
  | 0, _, _, _ :: _ => .error "fuel exhausted"
  | fuel + 1, acc, prev, c :: rest =>
      match matchTok prev (c :: rest) with
      | none => .error ("Unexpected character: " ++ c.toString)
      | some (kind, lexeme, rest2) =>
          let acc2 := if skipKind kind then acc else acc ++ [(kind, lexeme)]
          tokenizeAux fuel acc2 lexeme.toList.getLast? rest2

/-- `Lexical_Analyzer.tokenize`. -/
def tokenize (code : String) : Except String (List Token) :=
  tokenizeAux (code.length + 1) [] none code.toList

end Lexer

/-! ## AST (the dicts produced by Syntax_analyzer.py)

Number / string / char literal nodes store the token lexeme (a Python
string); boolean literal nodes store a bool.  A `ForLoop` node holds two
Assignment nodes (init, update), a Condition node and a statement list. -/

inductive Expr where
  | num (value : String)
  | var (name : String)
  | strLit (value : String)
  | charLit (value : String)
  | boolLit (value : Bool)
  | un (op : String) (operand : Expr)
  | bin (op : String) (left right : Expr)
deriving DecidableEq, Repr

/-- A Condition node `{left, op, right}`. -/
structure Cond where
  left : Expr
  op : String
  right : Expr
deriving DecidableEq, Repr

/-- An Assignment node `{var, expr}` (also the init/update of a ForLoop). -/
structure Asgn where
  var : String
  expr : Expr
deriving DecidableEq, Repr

inductive Stmt where
  | decl (var_type var_name : String) (initializer : Option Expr)
  | assign (a : Asgn)
  | forL (init : Asgn) (condition : Cond) (update : Asgn) (body : List Stmt)
deriving Repr

/-! ## Parser (Syntax_analyzer.py SyntaxAnalyzer)

One-token-lookahead recursive descent over the materialized token list.
The mutable `self.pos` is threaded explicitly; `SyntaxError` raises are
`Except.error` carrying the exact message text.  The recursion is bounded
by a fuel parameter, an artifact of the embedding only (on inputs on
which the source terminates, any sufficient fuel gives its result). -/

namespace SyntaxAnalyzer

abbrev Token := String × String

/-- Python value-or-None rendered into an f-string. -/
def optStr : Option String → String
  | some s => s
  | none => "None"

/-- Quote a lexeme the way the f-strings of the source do. -/
def qs (s : String) : String :=
  (Char.ofNat 39).toString ++ s ++ (Char.ofNat 39).toString

def curTok (tk : List Token) (pos : Nat) : Option Token := tk.get? pos

/-- `match(expected_type, expected_value)`: consume and return the value
only when both optional constraints hold. -/
def pmatch (tk : List Token) (pos : Nat) (et ev : Option String) : Option (String × Nat) :=
  match curTok tk pos with
  | some (t, v) =>
      if (match et with | some e => e == t | none => true)
          && (match ev with | some e => e == v | none => true) then
        some (v, pos + 1)
      else none
  | none => none

/-- The error message of `expect`. -/
def expectMsg (tk : List Token) (pos : Nat) (et ev : Option String) : String :=
  let expectedDesc :=
    match ev with
    | some v => qs v ++ " (" ++ optStr et ++ ")"
    | none => "type " ++ qs (optStr et)
  let foundDesc :=
    match curTok tk pos with
    | some (t, v) => if v != "" then qs v ++ " (" ++ t ++ ")" else "end of input"
    | none => "end of input"
  "Expected " ++ expectedDesc ++ " but found " ++ foundDesc ++ " at position " ++ toString pos

/-- `expect`: `match` or raise `SyntaxError`. -/
def expectT (tk : List Token) (pos : Nat) (et ev : Option String) :
    Except String (String × Nat) :=
  match pmatch tk pos et ev with
  | some r => .ok r
  | none => .error (expectMsg tk pos et ev)

def declaration_keywords : List String :=
  ["int", "float", "string", "double", "char", "bool"]

/-- The `parse_stmt` fall-through error message. -/
def stmtErrMsg (tk : List Token) (pos : Nat) : String :=
  let (t, v) :=
    match curTok tk pos with
    | some (t, v) => (t, v)
    | none => ("None", "None")
  "Unexpected token " ++ qs v ++ " (" ++ t ++ ") at position " ++ toString pos ++
    ". Expected start of a statement (for, type, or ID)."

/-- The `parse_factor` fall-through error message. -/
def factorErrMsg (tk : List Token) (pos : Nat) : String :=
  let (t, v) :=
    match curTok tk pos with
    | some (t, v) => (t, v)
    | none => ("None", "None")
  "Unexpected token " ++ qs v ++ " (" ++ t ++ ") at position " ++ toString pos ++
    ". Expected a valid factor (ID, Number, Literal, " ++ qs "(" ++ ", or unary op)."

mutual

/-- `parse_factor`. -/
def pFactor : Nat → List Token → Nat → Except String (Expr × Nat)
  | 0, _, _ => .error "fuel exhausted"
  | n + 1, tk, pos =>
      match pmatch tk pos (some "OP") (some "-") with
      | some (_, p1) =>
          match pFactor n tk p1 with
          | .ok (e, p2) => .ok (.un "-" e, p2)
          | .error m => .error m
      | none =>
      match pmatch tk pos (some "SYMBOL") (some "(") with
      | some (_, p1) =>
          match pExpression n tk p1 with
          | .ok (e, p2) =>
              match expectT tk p2 (some "SYMBOL") (some ")") with
              | .ok (_, p3) => .ok (e, p3)
              | .error m => .error m
          | .error m => .error m
      | none =>
      match curTok tk pos with
      | some ("ID", v) => .ok (.var v, pos + 1)
      | some ("NUMBER", v) => .ok (.num v, pos + 1)
      | some ("STRING_LITERAL", v) => .ok (.strLit v, pos + 1)
      | some ("CHAR_LITERAL", v) => .ok (.charLit v, pos + 1)
      | some ("KEYWORD", "true") => .ok (.boolLit true, pos + 1)
      | some ("KEYWORD", "false") => .ok (.boolLit false, pos + 1)
      | _ => .error (factorErrMsg tk pos)

/-- The `while` loop of `parse_term` (star/slash, left associative). -/
def pTermLoop : Nat → List Token → Expr → Nat → Except String (Expr × Nat)
  | 0, _, _, _ => .error "fuel exhausted"
  | n + 1, tk, node, pos =>
      match curTok tk pos with
      | some ("OP", v) =>
          if v == "*" || v == "/" then
            match pFactor n tk (pos + 1) with
            | .ok (right, p2) => pTermLoop n tk (.bin v node right) p2
            | .error m => .error m
          else .ok (node, pos)
      | _ => .ok (node, pos)

/-- `parse_term`. -/
def pTerm : Nat → List Token → Nat → Except String (Expr × Nat)
  | 0, _, _ => .error "fuel exhausted"
  | n + 1, tk, pos =>
      match pFactor n tk pos with
      | .ok (node, p1) => pTermLoop n tk node p1
      | .error m => .error m

/-- The `while` loop of `parse_expression` (plus/minus, left associative). -/
def pExprLoop : Nat → List Token → Expr → Nat → Except String (Expr × Nat)
  | 0, _, _, _ => .error "fuel exhausted"
  | n + 1, tk, node, pos =>
      match curTok tk pos with
      | some ("OP", v) =>
          if v == "+" || v == "-" then
            match pTerm n tk (pos + 1) with
            | .ok (right, p2) => pExprLoop n tk (.bin v node right) p2
            | .error m => .error m
          else .ok (node, pos)
      | _ => .ok (node, pos)

/-- `parse_expression`. -/
def pExpression : Nat → List Token → Nat → Except String (Expr × Nat)
  | 0, _, _ => .error "fuel exhausted"
  | n + 1, tk, pos =>
      match pTerm n tk pos with
      | .ok (node, p1) => pExprLoop n tk node p1
      | .error m => .error m

end

/-- `parse_condition` (both branches of the source expect a REL_OP and a
right expression; they differ only in logging). -/
def pCondition (n : Nat) (tk : List Token) (pos : Nat) : Except String (Cond × Nat) :=
  match pExpression n tk pos with
  | .ok (l, p1) =>
      match expectT tk p1 (some "REL_OP") none with
      | .ok (op, p2) =>
          match pExpression n tk p2 with
          | .ok (r, p3) => .ok (⟨l, op, r⟩, p3)
          | .error m => .error m
      | .error m => .error m
  | .error m => .error m

/-- `parse_assignment`. -/
def pAssignment (n : Nat) (tk : List Token) (pos : Nat) : Except String (Asgn × Nat) :=
  match expectT tk pos (some "ID") none with
  | .ok (v, p1) =>
      match expectT tk p1 (some "ASSIGN") (some "=") with
      | .ok (_, p2) =>
          match pExpression n tk p2 with
          | .ok (e, p3) => .ok (⟨v, e⟩, p3)
          | .error m => .error m
      | .error m => .error m
  | .error m => .error m

/-- `parse_declaration`. -/
def pDeclaration (n : Nat) (tk : List Token) (pos : Nat) : Except String (Stmt × Nat) :=
  match expectT tk pos (some "KEYWORD") none with
  | .ok (t, p1) =>
      if !(declaration_keywords.contains t) then
        .error ("Expected type but found " ++ qs t)
      else
        match expectT tk p1 (some "ID") none with
        | .ok (nm, p2) =>
            match pmatch tk p2 (some "ASSIGN") (some "=") with
            | some (_, p3) =>
                match pExpression n tk p3 with
                | .ok (e, p4) =>
                    match expectT tk p4 (some "SYMBOL") (some ";") with
                    | .ok (_, p5) => .ok (.decl t nm (some e), p5)
                    | .error m => .error m
                | .error m => .error m
            | none =>
                match expectT tk p2 (some "SYMBOL") (some ";") with
                | .ok (_, p3) => .ok (.decl t nm none, p3)
                | .error m => .error m
        | .error m => .error m
  | .error m => .error m

/-- Whether the current token can start a statement, per
`parse_stmt_list`. -/
def canStartStmt (tok : Token) : Bool :=
  (tok.2 == "for" && tok.1 == "KEYWORD")
    || (declaration_keywords.contains tok.2 && tok.1 == "KEYWORD")
    || tok.1 == "ID"

mutual

/-- `parse_stmt`. -/
def pStmt : Nat → List Token → Nat → Except String (Stmt × Nat)
  | 0, _, _ => .error "fuel exhausted"
  | n + 1, tk, pos =>
      match curTok tk pos with
      | some (t, v) =>
          if v == "for" && t == "KEYWORD" then pForLoop n tk pos
          else if declaration_keywords.contains v && t == "KEYWORD" then
            pDeclaration n tk pos
          else if t == "ID" then
            match pAssignment n tk pos with
            | .ok (a, p1) =>
                match expectT tk p1 (some "SYMBOL") (some ";") with
                | .ok (_, p2) => .ok (.assign a, p2)
                | .error m => .error m
            | .error m => .error m
          else .error (stmtErrMsg tk pos)
      | none => .error (stmtErrMsg tk pos)

/-- `parse_for_loop`. -/
def pForLoop : Nat → List Token → Nat → Except String (Stmt × Nat)
  | 0, _, _ => .error "fuel exhausted"
  | n + 1, tk, pos =>
      match expectT tk pos (some "KEYWORD") (some "for") with
      | .ok (_, p1) =>
          match expectT tk p1 (some "SYMBOL") (some "(") with
          | .ok (_, p2) =>
              match pAssignment n tk p2 with
              | .ok (ini, p3) =>
                  match expectT tk p3 (some "SYMBOL") (some ";") with
                  | .ok (_, p4) =>
                      match pCondition n tk p4 with
                      | .ok (c, p5) =>
                          match expectT tk p5 (some "SYMBOL") (some ";") with
                          | .ok (_, p6) =>
                              match pAssignment n tk p6 with
                              | .ok (upd, p7) =>
                                  match expectT tk p7 (some "SYMBOL") (some ")") with
                                  | .ok (_, p8) =>
                                      match expectT tk p8 (some "SYMBOL") (some "\x7b") with
                                      | .ok (_, p9) =>
                                          match pStmtList n tk p9 with
                                          | .ok (body, p10) =>
                                              match expectT tk p10 (some "SYMBOL") (some "\x7d") with
                                              | .ok (_, p11) => .ok (.forL ini c upd body, p11)
                                              | .error m => .error m
                                          | .error m => .error m
                                      | .error m => .error m
                                  | .error m => .error m
                              | .error m => .error m
                          | .error m => .error m
                      | .error m => .error m
                  | .error m => .error m
              | .error m => .error m
          | .error m => .error m
      | .error m => .error m

/-- `parse_stmt_list`: stop at end of input, at a closing brace (value
comparison only), or at a token that cannot start a statement. -/
def pStmtList : Nat → List Token → Nat → Except String (List Stmt × Nat)
  | 0, _, _ => .error "fuel exhausted"
  | n + 1, tk, pos =>
      match curTok tk pos with
      | none => .ok ([], pos)
      | some (t, v) =>
          if v == "\x7d" then .ok ([], pos)
          else if !(canStartStmt (t, v)) then .ok ([], pos)
          else
            match pStmt n tk pos with
            | .ok (s, p1) =>
                match pStmtList n tk p1 with
                | .ok (rest, p2) => .ok (s :: rest, p2)
                | .error m => .error m
            | .error m => .error m

end

/-- `SyntaxAnalyzer.parse`: parse a statement list at position 0
(trailing unconsumed tokens are only a logged warning in the source). -/
def parse (tk : List Token) : Except String (List Stmt) :=
  match pStmtList (tk.length * 4 + 16) tk 0 with
  | .ok (body, _) => .ok body
  | .error m => .error m

end SyntaxAnalyzer

/-! ## TAC generator (tac_generator.py TACGenerator)

Numbers and variables yield their stored string directly; char and
boolean literal nodes have no visitor, so `generic_visit` returns
Python `None` for them.  `ForLoop` emits

    <init>  LABEL start  <condition operands>  IF_<relop> l, r -> body
    GOTO after  LABEL body  <body>  <update>  GOTO start  LABEL after

(the `if cond_result:` guard always takes the first branch here, because
`visit_Condition` returns a 3-tuple, which is truthy). -/

namespace TACGenerator

/-- The per-instance mutable attributes of `TACGenerator`. -/
structure GenSt where
  temp_count : Nat := 0
  label_count : Nat := 0
  tac_code : List Instr := []
  string_literals : List (String × String) := []
  string_label_count : Nat := 0
deriving Repr

def new_temp (st : GenSt) : String × GenSt :=
  ("t" ++ toString st.temp_count, { st with temp_count := st.temp_count + 1 })

def new_label (st : GenSt) : String × GenSt :=
  ("L" ++ toString st.label_count, { st with label_count := st.label_count + 1 })

/-- `new_string_label`: strip the quotes (`value[1:-1]`), then look the
text up in the ordered dict `string_literals`, inserting a fresh
`_strN` label when absent. -/
def new_string_label (string_value : String) (st : GenSt) : String × GenSt :=
  let actual := String.mk ((string_value.toList.drop 1).dropLast)
  match st.string_literals.find? (fun p => p.1 == actual) with
  | some p => (p.2, st)
  | none =>
      let label := "_str" ++ toString st.string_label_count
      (label, { st with string_literals := st.string_literals ++ [(actual, label)],
                        string_label_count := st.string_label_count + 1 })

def add_instruction (op : String) (arg1 arg2 result : Option Value) (st : GenSt) : GenSt :=
  { st with tac_code := st.tac_code ++ [{ op := op, arg1 := arg1, arg2 := arg2, result := result }] }

/-- Whether an operand makes `+` a `CONCAT`:
`isinstance(x, str) and x.startswith("_str")`. -/
def isStrRef : Option Value → Bool
  | some (.vstr s) => s.startsWith "_str"
  | _ => false

/-- `visit` on an expression node; returns the Python result of the
visitor (`None` for nodes without a visitor method). -/
def visitExpr : Expr → GenSt → Option Value × GenSt
  | .num v, st => (some (.vstr v), st)
  | .var n, st => (some (.vstr n), st)
  | .strLit v, st =>
      (some (.vstr (new_string_label v st).1), (new_string_label v st).2)
  | .charLit _, st => (none, st)
  | .boolLit _, st => (none, st)
  | .un op e, st =>
      let st1 := (visitExpr e st).2
      match (visitExpr e st).1 with
      | none => (some (.vstr (new_temp st1).1), (new_temp st1).2)
      | some v =>
          if op == "-" then
            (some (.vstr (new_temp st1).1),
             add_instruction "UMINUS" (some v) none (some (.vstr (new_temp st1).1))
               (new_temp st1).2)
          else (some v, st1)
  | .bin op l r, st =>
      let st1 := (visitExpr l st).2
      let st2 := (visitExpr r st1).2
      match (visitExpr l st).1, (visitExpr r st1).1 with
      | some a, some b =>
          let t := (new_temp st2).1
          let st3 := (new_temp st2).2
          if op == "+" then
            if isStrRef (some a) || isStrRef (some b) then
              (some (.vstr t), add_instruction "CONCAT" (some a) (some b) (some (.vstr t)) st3)
            else
              (some (.vstr t), add_instruction "ADD" (some a) (some b) (some (.vstr t)) st3)
          else if op == "-" then
            (some (.vstr t), add_instruction "SUB" (some a) (some b) (some (.vstr t)) st3)
          else if op == "*" then
            (some (.vstr t), add_instruction "MUL" (some a) (some b) (some (.vstr t)) st3)
          else if op == "/" then
            (some (.vstr t), add_instruction "DIV" (some a) (some b) (some (.vstr t)) st3)
          else (some (.vstr t), st3)
      | _, _ =>
          (some (.vstr (new_temp st2).1), (new_temp st2).2)

/-- `visit_Assignment` (also used for the init/update of a ForLoop). -/
def visitAsgn (a : Asgn) (st : GenSt) : GenSt :=
  let st1 := (visitExpr a.expr st).2
  match (visitExpr a.expr st).1 with
  | some v => add_instruction "ASSIGN" (some v) none (some (.vstr a.var)) st1
  | none => st1

/-- `visit_Condition`: evaluate both operands, emit nothing, return the
triple. -/
def visitCond (c : Cond) (st : GenSt) : (Option Value × String × Option Value) × GenSt :=
  let st1 := (visitExpr c.left st).2
  let st2 := (visitExpr c.right st1).2
  (((visitExpr c.left st).1, c.op, (visitExpr c.right st1).1), st2)

mutual

/-- `visit` on a statement node (`visit_Declaration` ignores any
initializer and emits nothing). -/
def visitStmt : Stmt → GenSt → GenSt
  | .decl _ _ _, st => st
  | .assign a, st => visitAsgn a st
  | .forL ini c upd body, st =>
      let st1 := visitAsgn ini st
      let startL := (new_label st1).1
      let st3 := add_instruction "LABEL" (some (.vstr startL)) none none (new_label st1).2
      let cv := (visitCond c st3).1
      let st4 := (visitCond c st3).2
      let bodyL := (new_label st4).1
      let afterL := (new_label (new_label st4).2).1
      let st7 := add_instruction ("IF_" ++ cv.2.1) cv.1 cv.2.2 (some (.vstr bodyL))
        (new_label (new_label st4).2).2
      let st8 := add_instruction "GOTO" (some (.vstr afterL)) none none st7
      let st9 := add_instruction "LABEL" (some (.vstr bodyL)) none none st8
      let st10 := visitStmts body st9
      let st11 := visitAsgn upd st10
      let st12 := add_instruction "GOTO" (some (.vstr startL)) none none st11
      add_instruction "LABEL" (some (.vstr afterL)) none none st12

/-- `visit` on a statement list. -/
def visitStmts : List Stmt → GenSt → GenSt
  | [], st => st
  | s :: rest, st => visitStmts rest (visitStmt s st)

end

/-- `TACGenerator().generate(ast)` on a `Program` node: a fresh generator
visits the body and returns `(tac_code, string_literals)`. -/
def generate (prog : List Stmt) : List Instr × List (String × String) :=
  let st := visitStmts prog {}
  (st.tac_code, st.string_literals)

end TACGenerator

/-! ## Semantic analyzer (Semantic_analyzer.py SemanticAnalyzer)

A single traversal that accumulates a symbol table and a diagnostics
list.  Diagnostics are modelled as tagged values (the source appends
message strings; the tags below are in one-to-one correspondence with the
`errors.append` sites).  Python `int()` / `float()` are modelled as sign
and digit parsing over the literal text; `ValueError` is `none`. -/

namespace SemanticAnalyzer

/-- The apostrophe character that delimits char literals. -/
def qc : Char := Char.ofNat 39

/-- One diagnostic, tagged by its `errors.append` site in the source. -/
inductive SemErr where
  | invalidDeclarationNode
  | alreadyDeclared (name : String)
  | unsupportedDeclType (ty name : String)
  | invalidAssignmentNode
  | notDeclaredBeforeAssignment (name : String)
  | invalidCharLiteralInAssignment (lit name : String)
  | typeMismatchAssignment (name exprTy declTy : String)
  | literalNotStorable (name : String)
  | incompatibleComparison (op lt rt : String)
  | plusOperandTypes (lt rt : String)
  | arithOperandTypes (op lt rt : String)
  | divisionByZero
  | unknownBinaryOp (op lt rt : String)
  | unaryMinusOperandType (ty : String)
  | unsupportedUnaryOp (op : String)
  | usedBeforeDeclaration (name : String)
  | invalidCharLiteralFormat (lit : String)
  | unknownEscapeSequence (lit : String)
  | charLiteralTooLong (lit : String)
  | invalidNumberFormat (s : String)
  | malformedCharLiteralNode (lit : String)
  | unknownEscapeInCharType (lit : String)
  | charLiteralNotSingleChar (lit : String)
deriving DecidableEq, Repr

/-- A symbol table entry `{type, initialized, value, scope}`. -/
structure SEntry where
  type : String
  initialized : Bool
  value : Option Value
  scope : Nat
deriving DecidableEq, Repr

/-- The per-instance mutable attributes of `SemanticAnalyzer`. -/
structure ASt where
  symbol_table : List (String × SEntry) := []
  errors : List SemErr := []
  declared_vars : List String := []
  current_scope_level : Nat := 0
deriving Repr

def addErr (st : ASt) (e : SemErr) : ASt := { st with errors := st.errors ++ [e] }

def addErrs (st : ASt) (es : List SemErr) : ASt := { st with errors := st.errors ++ es }

def lookupEntry (tbl : List (String × SEntry)) (n : String) : Option SEntry :=
  (tbl.find? (fun p => p.1 == n)).map (fun p => p.2)

/-- Python `dict[key] = entry` (replace in place or append). -/
def tableSet (tbl : List (String × SEntry)) (n : String) (e : SEntry) :
    List (String × SEntry) :=
  if (tbl.find? (fun p => p.1 == n)).isSome then
    tbl.map (fun p => if p.1 == n then (p.1, e) else p)
  else tbl ++ [(n, e)]

/-- In-place mutation of the fields of an existing entry. -/
def tableUpdate (tbl : List (String × SEntry)) (n : String) (f : SEntry → SEntry) :
    List (String × SEntry) :=
  tbl.map (fun p => if p.1 == n then (p.1, f p.2) else p)

def supported_types : List String := ["int", "float", "string", "double", "char", "bool"]

def numericType (t : String) : Bool := t == "int" || t == "float" || t == "double"

/-- Python `'.' in s or 'e' in s.lower()`. -/
def hasDotOrE (s : String) : Bool :=
  s.toList.contains (Char.ofNat 46) || s.toList.contains 'e' || s.toList.contains 'E'

/-- Python `int(s)` on literal text: optional sign then digits
(whitespace stripping and underscores are not modelled; the literals in
this language never contain them). -/
def pyIntParse (s : String) : Option Int := s.toInt?

/-- Python `float(s)` on literal text: sign, decimal digits with an
optional point, optional exponent; IEEE rounding is abstracted to the
exact rational. -/
def pyFloatParse (s : String) : Option ℚ :=
  let cs := s.toList
  let (sgn, cs1) : ℚ × List Char :=
    match cs with
    | c :: rest => if c == '-' then (-1, rest) else if c == '+' then (1, rest) else (1, cs)
    | [] => (1, cs)
  let (mant, expPart) : List Char × Option (List Char) :=
    match cs1.splitOn 'e', cs1.splitOn 'E' with
    | [m, e], _ => (m, some e)
    | _, [m, e] => (m, some e)
    | _, _ => (cs1, none)
  let (ip, fp) : List Char × List Char :=
    match mant.splitOn (Char.ofNat 46) with
    | [a, b] => (a, b)
    | _ => (mant, [])
  if mant.contains (Char.ofNat 46) && (mant.splitOn (Char.ofNat 46)).length != 2 then none
  else if (ip ++ fp).isEmpty || !((ip ++ fp).all Char.isDigit) then none
  else
    let digitsVal : List Char → Nat := fun ds => ds.foldl (fun a c => a * 10 + (c.toNat - 48)) 0
    let base : ℚ := sgn * (digitsVal (ip ++ fp) : ℚ) / ((10 : ℚ) ^ fp.length)
    match expPart with
    | none => some base
    | some e =>
        let (esgn, e1) : Bool × List Char :=
          match e with
          | c :: rest => if c == '-' then (true, rest) else if c == '+' then (false, rest) else (false, e)
          | [] => (false, e)
        if e1.isEmpty || !(e1.all Char.isDigit) then none
        else
          let ev := digitsVal e1
          some (if esgn then base / ((10 : ℚ) ^ ev) else base * ((10 : ℚ) ^ ev))

def escChars : List Char := ['n', 't', qc, '"', Char.ofNat 92]

/-- `esc_map.get(c, c)`. -/
def escMapGet (c : Char) : Char :=
  if c == 'n' then Char.ofNat 10 else if c == 't' then Char.ofNat 9 else c

/-- The CharLiteral branch of `get_expression_type`. -/
def charTypeOf (v : String) : String × List SemErr :=
  let cs := v.toList
  if !(decide (cs.length ≥ 2) && (cs.head? == some qc) && (cs.getLast? == some qc)) then
    ("Unknown", [.malformedCharLiteralNode v])
  else
    let inner := (cs.drop 1).dropLast
    if inner.length == 1 then ("char", [])
    else if inner.length == 2 && (inner.head? == some (Char.ofNat 92)) then
      if escChars.contains (inner.getD 1 ' ') then ("char", [])
      else ("Unknown", [.unknownEscapeInCharType v])
    else ("Unknown", [.charLiteralNotSingleChar v])

/-- `get_expression_type`: the inferred type together with the
diagnostics this (re)traversal appends. -/
def getExprType (tbl : List (String × SEntry)) : Expr → String × List SemErr
  | .num v =>
      if hasDotOrE v then
        match pyFloatParse v with
        | some _ => ("double", [])
        | none => ("Unknown", [.invalidNumberFormat v])
      else
        match pyIntParse v with
        | some _ => ("int", [])
        | none => ("Unknown", [.invalidNumberFormat v])
  | .var n =>
      (match lookupEntry tbl n with
       | some e => e.type
       | none => "Unknown", [])
  | .strLit _ => ("string", [])
  | .charLit v => charTypeOf v
  | .boolLit _ => ("bool", [])
  | .un op e =>
      let (t, es) := getExprType tbl e
      if op == "-" && numericType t then (t, es) else ("Unknown", es)
  | .bin op l r =>
      let (lt, e1) := getExprType tbl l
      let (rt, e2) := getExprType tbl r
      let es := e1 ++ e2
      if lt == "Unknown" || rt == "Unknown" then ("Unknown", es)
      else if op == "+" then
        if lt == "string" && rt == "string" then ("string", es)
        else if numericType lt && numericType rt then
          (if lt == "double" || rt == "double" then "double"
           else if lt == "float" || rt == "float" then "float"
           else "int", es)
        else ("Unknown", es)
      else if op == "-" || op == "*" || op == "/" then
        if numericType lt && numericType rt then
          (if op == "/" then
             (if lt == "double" || rt == "double" || lt == "float" || rt == "float" then "double"
              else "float")
           else if lt == "double" || rt == "double" then "double"
           else if lt == "float" || rt == "float" then "float"
           else "int", es)
        else ("Unknown", es)
      else ("Unknown", es)

/-- `visit_CharLiteral`. -/
def charLitVisit (st : ASt) (v : String) : ASt :=
  let cs := v.toList
  if !(decide (cs.length ≥ 2) && (cs.head? == some qc) && (cs.getLast? == some qc)) then
    addErr st (.invalidCharLiteralFormat v)
  else if cs.length == 3 && (cs.getD 1 ' ' == Char.ofNat 92)
      && !(escChars.contains (cs.getD 2 ' ')) then
    addErr st (.unknownEscapeSequence v)
  else if decide (cs.length > 3) && !((cs.getD 1 ' ' == Char.ofNat 92) && cs.length == 4) then
    if !((cs.getD 1 ' ' == Char.ofNat 92) && escChars.contains (cs.getD 2 ' ')
        && cs.length == 4 && (cs.getD 3 ' ' == qc)) then
      addErr st (.charLiteralTooLong v)
    else st
  else st

/-- `visit` on an expression node. -/
def semVisitExpr (st : ASt) : Expr → ASt
  | .num _ => st
  | .var n =>
      if (lookupEntry st.symbol_table n).isSome then st
      else addErr st (.usedBeforeDeclaration n)
  | .strLit _ => st
  | .charLit v => charLitVisit st v
  | .boolLit _ => st
  | .un op e =>
      let st1 := semVisitExpr st e
      let p := getExprType st1.symbol_table e
      let st2 := addErrs st1 p.2
      if op == "-" then
        if numericType p.1 then st2 else addErr st2 (.unaryMinusOperandType p.1)
      else addErr st2 (.unsupportedUnaryOp op)
  | .bin op l r =>
      let st1 := semVisitExpr st l
      let st2 := semVisitExpr st1 r
      let p1 := getExprType st2.symbol_table l
      let st3 := addErrs st2 p1.2
      let p2 := getExprType st3.symbol_table r
      let st4 := addErrs st3 p2.2
      let lt := p1.1
      let rt := p2.1
      if lt != "Unknown" && rt != "Unknown" then
        if op == "+" then
          if (lt == "string" && rt == "string") || (numericType lt && numericType rt) then st4
          else addErr st4 (.plusOperandTypes lt rt)
        else if op == "-" || op == "*" || op == "/" then
          let st5 :=
            if !(numericType lt && numericType rt) then addErr st4 (.arithOperandTypes op lt rt)
            else st4
          if op == "/" then
            match r with
            | .num s =>
                match pyFloatParse s with
                | some q => if q = 0 then addErr st5 .divisionByZero else st5
                | none => st5
            | _ => st5
          else st5
        else addErr st4 (.unknownBinaryOp op lt rt)
      else st4

/-- The `assigned_value` computation of `visit_Assignment` (literal
right-hand sides only); may append the char-format diagnostic. -/
def assignedValueOf (st : ASt) (n : String) : Expr → Option Value × ASt
  | .num s =>
      ((if hasDotOrE s then (pyFloatParse s).map Value.vfloat
        else (pyIntParse s).map Value.vint), st)
  | .strLit s => (some (.vstr (String.mk ((s.toList.drop 1).dropLast))), st)
  | .charLit s =>
      let cs := s.toList
      if cs.length == 3 && (cs.head? == some qc) && (cs.getLast? == some qc) then
        if cs.getD 1 ' ' == Char.ofNat 92 then
          (some (.vstr (escMapGet (cs.getD 2 ' ')).toString), st)
        else (some (.vstr (cs.getD 1 ' ').toString), st)
      else (none, addErr st (.invalidCharLiteralInAssignment s n))
  | .boolLit b => (some (.vbool b), st)
  | _ => (none, st)

/-- Python `isinstance` check deciding whether a literal value is storable
under the declared type (`bool` is an `int` in Python). -/
def pyTypeOk (dt : String) (v : Value) : Bool :=
  if dt == "int" then isIntish v
  else if dt == "float" then isNum v
  else if dt == "double" then isNum v
  else if dt == "string" then (match v with | .vstr _ => true | _ => false)
  else if dt == "char" then (match v with | .vstr s => s.length == 1 | _ => false)
  else if dt == "bool" then (match v with | .vbool _ => true | _ => false)
  else false

/-- `visit_Assignment` (the node always carries an expression here, so
only an empty target name triggers the invalid-structure branch). -/
def semVisitAsgn (st : ASt) (a : Asgn) : ASt :=
  let n := a.var
  if n == "" then addErr st .invalidAssignmentNode
  else if (lookupEntry st.symbol_table n) = none then
    semVisitExpr (addErr st (.notDeclaredBeforeAssignment n)) a.expr
  else
    let st1 := semVisitExpr st a.expr
    let p := getExprType st1.symbol_table a.expr
    let st2 := addErrs st1 p.2
    let q := assignedValueOf st2 n a.expr
    let st3 := q.2
    if p.1 != "Unknown" then
      let dt := (((lookupEntry st3.symbol_table n).map (fun e => e.type)).getD "")
      let compatible :=
        dt == p.1
          || ((dt == "float") && (p.1 == "int" || p.1 == "float" || p.1 == "double"))
          || ((dt == "double") && (p.1 == "int" || p.1 == "float" || p.1 == "double"))
          || ((dt == "bool") && (p.1 == "bool"))
          || ((dt == "char") && (p.1 == "char"))
      let st4 := if !compatible then addErr st3 (.typeMismatchAssignment n p.1 dt) else st3
      let st5 := { st4 with symbol_table := tableUpdate st4.symbol_table n (fun en => { en with initialized := true }) }
      match q.1 with
      | some v =>
          if pyTypeOk dt v then
            { st5 with symbol_table := tableUpdate st5.symbol_table n (fun en => { en with value := some v }) }
          else
            let st6 := addErr st5 (.literalNotStorable n)
            { st6 with symbol_table := tableUpdate st6.symbol_table n (fun en => { en with value := none }) }
      | none =>
          { st5 with symbol_table := tableUpdate st5.symbol_table n (fun en => { en with value := none }) }
    else
      { st3 with symbol_table := tableUpdate st3.symbol_table n (fun en => { en with initialized := true, value := none }) }

/-- `visit_Condition` (left, op and right are always present in this
AST, so the invalid-structure branch cannot fire). -/
def semVisitCond (st : ASt) (c : Cond) : ASt :=
  let st1 := semVisitExpr st c.left
  let st2 := semVisitExpr st1 c.right
  let p1 := getExprType st2.symbol_table c.left
  let st3 := addErrs st2 p1.2
  let p2 := getExprType st3.symbol_table c.right
  let st4 := addErrs st3 p2.2
  if p1.1 != "Unknown" && p2.1 != "Unknown" then
    let canCompare :=
      (numericType p1.1 && numericType p2.1)
        || (p1.1 == "char" && p2.1 == "char")
        || (p1.1 == "string" && p2.1 == "string" && (c.op == "==" || c.op == "!="))
        || (p1.1 == "bool" && p2.1 == "bool" && (c.op == "==" || c.op == "!="))
    if !canCompare then addErr st4 (.incompatibleComparison c.op p1.1 p2.1) else st4
  else st4

mutual

/-- `visit` on a statement node.  `visit_Declaration` never visits an
initializer; its redeclaration check runs before the type check, and a
redeclaration leaves both the declared-name set and the table entry
untouched. -/
def semVisitStmt (st : ASt) : Stmt → ASt
  | .decl t n _ =>
      if n == "" || t == "" then addErr st .invalidDeclarationNode
      else if st.declared_vars.contains n then addErr st (.alreadyDeclared n)
      else if !(supported_types.contains t) then addErr st (.unsupportedDeclType t n)
      else
        { st with declared_vars := st.declared_vars ++ [n],
                  symbol_table := tableSet st.symbol_table n
                    ⟨t, false, none, st.current_scope_level⟩ }
  | .assign a => semVisitAsgn st a
  | .forL ini c upd body =>
      let st1 := { st with current_scope_level := st.current_scope_level + 1 }
      let st2 := semVisitAsgn st1 ini
      let st3 := semVisitCond st2 c
      let st4 := semVisitAsgn st3 upd
      let st5 := semVisitStmts st4 body
      { st5 with current_scope_level := st5.current_scope_level - 1 }

/-- `visit` on a statement list. -/
def semVisitStmts (st : ASt) : List Stmt → ASt
  | [] => st
  | s :: rest => semVisitStmts (semVisitStmt st s) rest

end

/-- `SemanticAnalyzer(ast).analyze()` on a `Program` node. -/
def analyze (prog : List Stmt) : List (String × SEntry) × List SemErr :=
  let st := semVisitStmts {} prog
  (st.symbol_table, st.errors)

end SemanticAnalyzer

/-! ## Claims about the optimizer: totality and the zero divisor -/

namespace TACOptimizer

/-- An instruction on which `constant_folding` raises `ZeroDivisionError`:
a `DIV` whose operands are both numeric literals with a zero divisor. -/
def badDiv (i : Instr) : Bool :=
  i.op == "DIV" && isNumO i.arg1
    && (match i.arg2 with
        | some v => isNum v && decide (qOf v = 0)
        | none => false)

theorem foldStep_error_iff (i : Instr) :
    foldStep i = .error .zeroDivision ↔ badDiv i = true := by
  rcases i with ⟨op, a1, a2, r⟩
  cases a1 with
  | none => simp [foldStep, badDiv, isNumO]
  | some a =>
      cases a2 with
      | none => simp [foldStep, badDiv, isNumO]
      | some b =>
          by_cases hd : op = "DIV"
          · subst hd
            cases hna : isNum a <;> cases hnb : isNum b <;>
              simp [foldStep, badDiv, isNumO, pyArith, hna, hnb] <;>
              by_cases hz : qOf b = 0 <;> simp [hz, Except.map]
          · have hne : (op == "DIV") = false := by simpa using hd
            have hok : ∃ v, pyArith op a b = .ok v := by
              simp [pyArith, hne]
              split <;> exact ⟨_, rfl⟩
            obtain ⟨v, hv⟩ := hok
            simp only [foldStep, badDiv, isNumO, hne, Bool.false_and, Bool.and_false]
            split <;> simp [hv, Except.map]

theorem constant_folding_error_iff (tac : List Instr) :
    constant_folding tac = .error .zeroDivision ↔ ∃ i ∈ tac, badDiv i = true := by
  induction tac with
  | nil => simp [constant_folding]
  | cons i rest ih =>
      constructor
      · intro h
        simp only [constant_folding] at h
        cases hf : foldStep i with
        | error e =>
            cases e
            exact ⟨i, List.mem_cons_self i rest, (foldStep_error_iff i).mp hf⟩
        | ok i2 =>
            rw [hf] at h
            cases hr : constant_folding rest with
            | error e =>
                cases e
                obtain ⟨j, hj, hb⟩ := ih.mp hr
                exact ⟨j, List.mem_cons_of_mem _ hj, hb⟩
            | ok rest2 =>
                rw [hr] at h
                cases h
      · rintro ⟨j, hj, hb⟩
        simp only [constant_folding]
        rcases List.mem_cons.mp hj with rfl | hj2
        · rw [(foldStep_error_iff j).mpr hb]
        · cases hf : foldStep i with
          | error e => cases e; rfl
          | ok i2 => rw [ih.mpr ⟨j, hj2, hb⟩]

end TACOptimizer

/-- Claim C2 (corrected).  As a function of instruction values,
`optimize` is deterministic and pure by construction; but it is not
total: it raises (exactly) `ZeroDivisionError`, and it does so if and
only if the input holds a `DIV` instruction whose operands are both
numeric literals and whose literal divisor is zero — the `eval` inside
`constant_folding` raises and no pass catches it. -/
theorem optimize_raises_iff_zero_div (tac : List Instr) :
    TACOptimizer.optimize tac = .error .zeroDivision ↔
      ∃ i ∈ tac, TACOptimizer.badDiv i = true := by
  rw [← TACOptimizer.constant_folding_error_iff]
  unfold TACOptimizer.optimize
  cases h : TACOptimizer.constant_folding tac <;> simp [h, Except.map]

/-- Claim C2, counterexample: on `DIV t0, 1, 0` the optimizer raises
`ZeroDivisionError` instead of returning, refuting totality. -/
theorem optimize_raises_counterexample :
    TACOptimizer.optimize
      [{ op := "DIV", arg1 := some (.vint 1), arg2 := some (.vint 0),
         result := some (.vstr "t0") }] = .error .zeroDivision := rfl

/-- Claim C3 (corrected).  When constant folding meets a `DIV` whose
operands are both numeric literals with a zero divisor, it raises
`ZeroDivisionError`, which propagates out of `optimize`: the error is an
exception that aborts optimization, not a recorded diagnostic; the
instruction is neither folded to an infinite or NaN value nor left
silently unfolded (there is no normal return at all). -/
theorem fold_zero_div_raises (tac : List Instr) (i : Instr)
    (h1 : i ∈ tac) (h2 : TACOptimizer.badDiv i = true) :
    TACOptimizer.constant_folding tac = .error .zeroDivision
    ∧ TACOptimizer.optimize tac = .error .zeroDivision := by
  have hf : TACOptimizer.constant_folding tac = .error .zeroDivision :=
    (TACOptimizer.constant_folding_error_iff tac).mpr ⟨i, h1, h2⟩
  refine ⟨hf, ?_⟩
  unfold TACOptimizer.optimize
  rw [hf]
  rfl

/-- Witness for C3 at `DIV t1, 5, 0.0` (a float zero divisor also
raises). -/
theorem fold_zero_div_raises_witness :
    TACOptimizer.constant_folding
        [{ op := "DIV", arg1 := some (.vint 5), arg2 := some (.vfloat 0),
           result := some (.vstr "t1") }] = .error .zeroDivision
    ∧ TACOptimizer.optimize
        [{ op := "DIV", arg1 := some (.vint 5), arg2 := some (.vfloat 0),
           result := some (.vstr "t1") }] = .error .zeroDivision :=
  fold_zero_div_raises _ _ (List.mem_singleton.mpr rfl) (by decide)

/-- Claim C3, counterexample: on the lowering of `x = 1 / 0;` the
folding pass raises out of `optimize` — there is no returned sequence
carrying a diagnostic, no inf/NaN fold and no silently kept
instruction. -/
theorem fold_zero_div_counterexample :
    TACOptimizer.optimize
      [{ op := "DIV", arg1 := some (.vint 1), arg2 := some (.vint 0),
         result := some (.vstr "t0") },
       { op := "ASSIGN", arg1 := some (.vstr "t0"), arg2 := none,
         result := some (.vstr "x") }] = .error .zeroDivision := rfl

/-! ## Claim C5: constant propagation -/

namespace TACOptimizer

/-- An `ASSIGN` instruction whose (truthy) result is `v` — the only kind
of write the candidate analysis of `constant_propagation` counts. -/
def assignsVar (v : Value) (i : Instr) : Bool :=
  i.op == "ASSIGN"
    && (match i.result with
        | some w => truthy w && pyEq w v
        | none => false)

/-- Membership of a variable among the keys of an association list
(a Python dict keyed by values). -/
def keyMem (v : Value) (ao : List (Value × Option Value)) : Bool :=
  ao.any (fun q => pyEq v q.1)

theorem keyMem_append (v : Value) (ao : List (Value × Option Value)) (q) :
    keyMem v (ao ++ [q]) = (keyMem v ao || pyEq v q.1) := by
  simp [keyMem, List.any_append]

theorem count_succ_absorb (n : Nat) :
    (decide (1 ≤ n) || decide (2 ≤ n)) = decide (2 ≤ n + 1) := by
  by_cases h : 1 ≤ n
  · have h2 : 2 ≤ n + 1 := by omega
    simp [h, h2]
  · have h2 : ¬ 2 ≤ n := by omega
    have h3 : ¬ 2 ≤ n + 1 := by omega
    simp [h, h2, h3]

theorem propPass1_fold (v : Value) (l : List Instr) :
    ∀ (ao : List (Value × Option Value)) (re : List Value),
      (keyMem v (l.foldl propStep (ao, re)).1
        = (keyMem v ao || decide (1 ≤ l.countP (assignsVar v))))
      ∧ (pyMem v (l.foldl propStep (ao, re)).2
        = (pyMem v re || (keyMem v ao && decide (1 ≤ l.countP (assignsVar v)))
            || decide (2 ≤ l.countP (assignsVar v)))) := by
  induction l with
  | nil => intro ao re; simp
  | cons i rest ih =>
      intro ao re
      by_cases hc : assignsVar v i = true
      · -- the head instruction is an ASSIGN with truthy result pyEq to v
        have hcnt : (i :: rest).countP (assignsVar v)
            = rest.countP (assignsVar v) + 1 := by
          rw [List.countP_cons, hc]
          rfl
        obtain ⟨w, hres, ht, he⟩ :
            ∃ w, i.result = some w ∧ truthy w = true ∧ pyEq w v = true := by
          unfold assignsVar at hc
          cases hres : i.result with
          | none => rw [hres] at hc; simp at hc
          | some w =>
              rw [hres] at hc
              simp only [Bool.and_eq_true] at hc
              exact ⟨w, rfl, hc.2.1, hc.2.2⟩
        have hop : (i.op == "ASSIGN") = true := by
          unfold assignsVar at hc
          simp only [Bool.and_eq_true] at hc
          exact hc.1
        have hvw : pyEq v w = true := by rw [pyEq_symm]; exact he
        have hkm : keyMem w ao = keyMem v ao := by
          simp only [keyMem]
          congr 1
          funext q
          rw [pyEq_eq_keyOf, pyEq_eq_keyOf]
          rw [pyEq_eq_keyOf] at he
          simp only [decide_eq_true_eq] at he
          rw [he]
        cases hka : keyMem w ao with
        | true =>
            have hstep : propStep (ao, re) i = (ao, w :: re) := by
              simp only [propStep, hop, if_true, hres, ht]
              simp only [keyMem] at hka
              simp [hka]
            simp only [List.foldl_cons, hstep, hcnt]
            obtain ⟨ih1, ih2⟩ := ih ao (w :: re)
            have hkv : keyMem v ao = true := by rw [← hkm, hka]
            have hdec : decide (1 ≤ rest.countP (assignsVar v) + 1) = true := by
              simp
            constructor
            · rw [ih1, hkv, hdec]
              simp
            · rw [ih2, hkv]
              have hmem : pyMem v (w :: re) = true := by simp [pyMem, hvw]
              rw [hmem, hdec]
              simp
        | false =>
            have hstep : propStep (ao, re) i = (ao ++ [(w, i.arg1)], re) := by
              simp only [propStep, hop, if_true, hres, ht]
              simp only [keyMem] at hka
              simp [hka]
            simp only [List.foldl_cons, hstep, hcnt]
            obtain ⟨ih1, ih2⟩ := ih (ao ++ [(w, i.arg1)]) re
            have hkv : keyMem v ao = false := by rw [← hkm, hka]
            have hkm2 : keyMem v (ao ++ [(w, i.arg1)]) = true := by
              rw [keyMem_append]
              simp [hvw]
            have hdec : decide (1 ≤ rest.countP (assignsVar v) + 1) = true := by
              simp
            constructor
            · rw [ih1, hkm2, hkv, hdec]
              rfl
            · rw [ih2, hkm2, hkv]
              simp only [Bool.true_and, Bool.false_and, Bool.false_or, Bool.or_false]
              rw [Bool.or_assoc, count_succ_absorb]
      · -- the head instruction does not count as an ASSIGN to v
        have hc2 : assignsVar v i = false := by
          cases h2 : assignsVar v i
          · rfl
          · exact absurd h2 hc
        have hcnt : (i :: rest).countP (assignsVar v)
            = rest.countP (assignsVar v) := by
          rw [List.countP_cons, hc2]
          rfl
        have hstate : (keyMem v (propStep (ao, re) i).1 = keyMem v ao)
            ∧ (pyMem v (propStep (ao, re) i).2 = pyMem v re) := by
          by_cases hop : (i.op == "ASSIGN") = true
          · cases hres : i.result with
            | none =>
                have hstep : propStep (ao, re) i = (ao, re) := by
                  simp [propStep, hop, hres]
                rw [hstep]
                exact ⟨rfl, rfl⟩
            | some w =>
                cases ht : truthy w with
                | false =>
                    have hstep : propStep (ao, re) i = (ao, re) := by
                      simp [propStep, hop, hres, ht]
                    rw [hstep]
                    exact ⟨rfl, rfl⟩
                | true =>
                    have hwv : pyEq w v = false := by
                      unfold assignsVar at hc2
                      rw [hres] at hc2
                      simp only [hop, Bool.true_and, ht] at hc2
                      simpa using hc2
                    have hvw : pyEq v w = false := by rw [pyEq_symm]; exact hwv
                    cases hka : ao.any (fun q => pyEq w q.1) with
                    | true =>
                        have hstep : propStep (ao, re) i = (ao, w :: re) := by
                          simp [propStep, hop, hres, ht, hka]
                        rw [hstep]
                        exact ⟨rfl, by simp [pyMem, hvw]⟩
                    | false =>
                        have hstep : propStep (ao, re) i = (ao ++ [(w, i.arg1)], re) := by
                          simp [propStep, hop, hres, ht, hka]
                        rw [hstep]
                        refine ⟨?_, rfl⟩
                        show keyMem v (ao ++ [(w, i.arg1)]) = keyMem v ao
                        rw [keyMem_append, hvw]
                        simp
          · have hop2 : (i.op == "ASSIGN") = false := by
              cases h2 : (i.op == "ASSIGN")
              · rfl
              · exact absurd h2 hop
            have hstep : propStep (ao, re) i = (ao, re) := by
              simp [propStep, hop2]
            rw [hstep]
            exact ⟨rfl, rfl⟩
        obtain ⟨hk, hm⟩ := hstate
        simp only [List.foldl_cons, hcnt]
        obtain ⟨ih1, ih2⟩ := ih (propStep (ao, re) i).1 (propStep (ao, re) i).2
        constructor
        · rw [ih1, hk]
        · rw [ih2, hk, hm]

theorem keyMem_filter (v : Value) (re : List Value) (ao : List (Value × Option Value)) :
    keyMem v (ao.filter (fun q => !(pyMem q.1 re)))
      = (keyMem v ao && !(pyMem v re)) := by
  induction ao with
  | nil => simp [keyMem]
  | cons q rest ih =>
      by_cases he : pyEq v q.1 = true
      · have hmm : pyMem q.1 re = pyMem v re := by
          rw [← pyMem_congr he]
        cases hk : pyMem v re
        · have : (!(pyMem q.1 re)) = true := by rw [hmm, hk]; rfl
          simp only [List.filter_cons, this, if_true, keyMem, List.any_cons]
          simp only [keyMem] at ih
          rw [he]
          simp [hk]
        · have : (!(pyMem q.1 re)) = false := by rw [hmm, hk]; rfl
          simp only [List.filter_cons, this, keyMem, List.any_cons]
          simp only [Bool.false_eq_true, if_false]
          simp only [keyMem] at ih
          rw [ih, hk]
          simp
      · have he2 : pyEq v q.1 = false := by
          cases h2 : pyEq v q.1
          · rfl
          · exact absurd h2 he
        simp only [List.filter_cons]
        cases hkeep : (!(pyMem q.1 re)) <;>
          simp only [keyMem, List.any_cons, he2, Bool.false_or, if_true, Bool.false_eq_true,
            if_false] <;>
          simp only [keyMem] at ih <;> rw [ih]

/-- The candidate set: a variable is a key of `const_vals` exactly when
the whole sequence holds exactly one `ASSIGN` to it (truthy result,
Python equality); writes by non-`ASSIGN` instructions do not count, and
the recorded value is that `ASSIGN`'s `arg1` whatever it is. -/
theorem constVals_keyMem (tac : List Instr) (v : Value) :
    keyMem v (constVals tac) = decide (tac.countP (assignsVar v) = 1) := by
  obtain ⟨h1, h2⟩ := propPass1_fold v tac [] []
  unfold constVals propPass1
  rw [keyMem_filter, h1, h2]
  have e1 : keyMem v ([] : List (Value × Option Value)) = false := rfl
  have e2 : pyMem v ([] : List Value) = false := rfl
  rw [e1, e2]
  simp only [Bool.false_or, Bool.false_and]
  by_cases g1 : 1 ≤ tac.countP (assignsVar v) <;>
    by_cases g2 : 2 ≤ tac.countP (assignsVar v) <;>
    by_cases g3 : tac.countP (assignsVar v) = 1 <;>
    simp [g1, g2, g3] <;> omega

end TACOptimizer

/-- Claim C5 (corrected).  In the source, `constant_propagation` takes a
variable as a candidate iff exactly one `ASSIGN` instruction in the whole
sequence has it as (truthy) result — whether or not the assigned value
is a literal, and ignoring writes by arithmetic instructions — and then
substitutes the recorded `arg1` into every string-typed operand slot
equal to the variable anywhere in the sequence, positions before the
defining assignment included (the second pass maps the substitution over
the whole list). -/
theorem constant_propagation_characterization (tac : List Instr) :
    TACOptimizer.constant_propagation tac
        = tac.map (TACOptimizer.substInstr (TACOptimizer.constVals tac))
    ∧ ∀ v : Value,
        TACOptimizer.keyMem v (TACOptimizer.constVals tac)
          = decide (tac.countP (TACOptimizer.assignsVar v) = 1) :=
  ⟨rfl, TACOptimizer.constVals_keyMem tac⟩

/-- Claim C5, counterexample: `x` is written twice (once by `ASSIGN`,
once by `ADD`), yet its value 5 is still propagated into the later use
of `x`; the claimed exclusion of variables written more than once by any
instruction does not hold. -/
theorem constant_propagation_counterexample :
    TACOptimizer.constant_propagation
      [{ op := "ASSIGN", arg1 := some (.vint 5), arg2 := none, result := some (.vstr "x") },
       { op := "ADD", arg1 := some (.vint 1), arg2 := some (.vint 2), result := some (.vstr "x") },
       { op := "ASSIGN", arg1 := some (.vstr "x"), arg2 := none, result := some (.vstr "y") }] =
      [{ op := "ASSIGN", arg1 := some (.vint 5), arg2 := none, result := some (.vstr "x") },
       { op := "ADD", arg1 := some (.vint 1), arg2 := some (.vint 2), result := some (.vstr "x") },
       { op := "ASSIGN", arg1 := some (.vint 5), arg2 := none, result := some (.vstr "y") }] := rfl

/-! ## Claim C6: dead code elimination -/

namespace TACOptimizer

/-- The retention condition `dead_code_elimination` actually applies: a
control-flow instruction, or a (truthy) result present in the use-set
that the forward pre-pass collected from the whole sequence. -/
def keepInstr (tac : List Instr) (i : Instr) : Bool :=
  isCF i.op || (truthyO i.result && pyMemO i.result (used0 tac))

theorem pyMem_pushT_mono {v : Value} {u : List Value} (a : Option Value)
    (h : pyMem v u = true) : pyMem v (pushT u a) = true := by
  cases a with
  | none => exact h
  | some w =>
      simp only [pushT]
      split
      · rw [pyMem_append, h]
        rfl
      · exact h

theorem pyMem_pushT_self {v : Value} (u : List Value)
    (h : truthy v = true) : pyMem v (pushT u (some v)) = true := by
  simp only [pushT, h, if_true]
  rw [pyMem_append]
  simp [pyMem, pyEq_refl]

theorem pushT_truthy {u : List Value} (a : Option Value)
    (h : ∀ w ∈ u, truthy w = true) : ∀ w ∈ pushT u a, truthy w = true := by
  cases a with
  | none => exact h
  | some x =>
      simp only [pushT]
      split
      · intro w hw
        rcases List.mem_append.mp hw with h1 | h2
        · exact h w h1
        · rw [List.mem_singleton.mp h2]
          assumption
      · exact h

theorem used0Step_truthy {u : List Value} (i : Instr)
    (h : ∀ w ∈ u, truthy w = true) : ∀ w ∈ used0Step u i, truthy w = true := by
  unfold used0Step
  split
  · exact pushT_truthy _ (pushT_truthy _ (pushT_truthy _ h))
  · exact pushT_truthy _ (pushT_truthy _ h)

theorem foldl_used0_truthy (l : List Instr) :
    ∀ (u : List Value), (∀ w ∈ u, truthy w = true) →
      ∀ w ∈ l.foldl used0Step u, truthy w = true := by
  induction l with
  | nil => intro u h; exact h
  | cons i rest ih =>
      intro u h
      exact ih (used0Step u i) (used0Step_truthy i h)

theorem used0_truthy (tac : List Instr) : ∀ w ∈ used0 tac, truthy w = true :=
  foldl_used0_truthy tac [] (by intro w hw; cases hw)

theorem pyMem_used0Step_mono {v : Value} {u : List Value} (i : Instr)
    (h : pyMem v u = true) : pyMem v (used0Step u i) = true := by
  unfold used0Step
  split
  · exact pyMem_pushT_mono _ (pyMem_pushT_mono _ (pyMem_pushT_mono _ h))
  · exact pyMem_pushT_mono _ (pyMem_pushT_mono _ h)

theorem foldl_used0_mono {v : Value} (l : List Instr) :
    ∀ (u : List Value), pyMem v u = true → pyMem v (l.foldl used0Step u) = true := by
  induction l with
  | nil => intro u h; exact h
  | cons i rest ih =>
      intro u h
      exact ih (used0Step u i) (pyMem_used0Step_mono i h)

/-- The union `pyMemO`: `None` is never a member. -/
theorem pyMemO_pushT_arg {a : Option Value} {u : List Value}
    (h : truthyO a = true) : pyMemO a (pushT u a) = true := by
  cases a with
  | none => cases h
  | some v => exact pyMem_pushT_self u h

theorem pyMemO_pushT_mono {a : Option Value} {u : List Value} (b : Option Value)
    (h : pyMemO a u = true) : pyMemO a (pushT u b) = true := by
  cases a with
  | none => cases h
  | some v => exact pyMem_pushT_mono b h

theorem pyMemO_used0Step_mono {a : Option Value} {u : List Value} (i : Instr)
    (h : pyMemO a u = true) : pyMemO a (used0Step u i) = true := by
  cases a with
  | none => cases h
  | some v => exact pyMem_used0Step_mono i h

theorem pyMemO_foldl_used0_mono {a : Option Value} (l : List Instr)
    {u : List Value} (h : pyMemO a u = true) :
    pyMemO a (l.foldl used0Step u) = true := by
  cases a with
  | none => cases h
  | some v => exact foldl_used0_mono l u h

/-- Every truthy `arg1`/`arg2` of every instruction is in the use-set the
forward pass collects. -/
theorem used0_args (tac : List Instr) :
    ∀ i ∈ tac,
      (truthyO i.arg1 = true → pyMemO i.arg1 (used0 tac) = true)
      ∧ (truthyO i.arg2 = true → pyMemO i.arg2 (used0 tac) = true) := by
  have main : ∀ (l : List Instr) (u : List Value), ∀ i ∈ l,
      (truthyO i.arg1 = true → pyMemO i.arg1 (l.foldl used0Step u) = true)
      ∧ (truthyO i.arg2 = true → pyMemO i.arg2 (l.foldl used0Step u) = true) := by
    intro l
    induction l with
    | nil => intro u i h; cases h
    | cons j rest ih =>
        intro u i hi
        rcases List.mem_cons.mp hi with rfl | hmem
        · constructor
          · intro h1
            apply pyMemO_foldl_used0_mono rest
            unfold used0Step
            have base : pyMemO i.arg1 (pushT (pushT u i.arg1) i.arg2) = true :=
              pyMemO_pushT_mono _ (pyMemO_pushT_arg h1)
            split
            · exact pyMemO_pushT_mono _ base
            · exact base
          · intro h2
            apply pyMemO_foldl_used0_mono rest
            unfold used0Step
            have base : pyMemO i.arg2 (pushT (pushT u i.arg1) i.arg2) = true :=
              pyMemO_pushT_arg h2
            split
            · exact pyMemO_pushT_mono _ base
            · exact base
        · exact ih (used0Step u j) i hmem
  intro i hi
  exact main tac [] i hi

/-- `pyMemO` only looks at the membership predicate of the use-set. -/
theorem pyMemO_congr_list {u1 u2 : List Value}
    (h : ∀ v, pyMem v u1 = pyMem v u2) (a : Option Value) :
    pyMemO a u1 = pyMemO a u2 := by
  cases a with
  | none => rfl
  | some v => exact h v

/-- Adding an element that is already (pyEq-)present in the reference
set preserves the membership predicate. -/
theorem pyMem_pushT_eq {u u0 : List Value} (a : Option Value)
    (h : ∀ v, pyMem v u = pyMem v u0)
    (ha : truthyO a = true → pyMemO a u0 = true) :
    ∀ v, pyMem v (pushT u a) = pyMem v u0 := by
  intro v
  cases a with
  | none => exact h v
  | some w =>
      simp only [pushT]
      split
      · rw [pyMem_append]
        cases hvw : pyEq v w with
        | true =>
            have h1 : pyMem w u0 = true := ha (by assumption)
            have h2 : pyMem v u0 = true := by
              rw [pyMem_congr hvw]
              exact h1
            rw [h2]
            simp [pyMem, hvw]
        | false =>
            rw [h v]
            simp [pyMem, hvw]
      · exact h v

/-- The backward scan of `dead_code_elimination` is, observably, a filter
by `keepInstr`: the use-set never changes as a membership predicate
(every value the scan adds is already in the pre-collected set), and the
`elif` branch for `ASSIGN` can never fire (a result found in the use-set
is necessarily truthy, so the first branch already took it). -/
theorem dce_fold (tac : List Instr) (l : List Instr) :
    ∀ (acc : List Instr) (u : List Value),
      (∀ i ∈ l, i ∈ tac) →
      (∀ v, pyMem v u = pyMem v (used0 tac)) →
      (∀ w ∈ u, truthy w = true) →
      (l.foldl dceStep (acc, u)).1 = l.reverse.filter (keepInstr tac) ++ acc := by
  induction l with
  | nil => intro acc u _ _ _; simp
  | cons i rest ih =>
      intro acc u hl hu ht
      have hiTac : i ∈ tac := hl i (List.mem_cons_self i rest)
      have hrest : ∀ j ∈ rest, j ∈ tac := fun j hj => hl j (List.mem_cons_of_mem i hj)
      have hcond : (isCF i.op || (truthyO i.result && pyMemO i.result u))
          = keepInstr tac i := by
        unfold keepInstr
        rw [pyMemO_congr_list hu]
      have hargs := used0_args tac i hiTac
      cases hk : keepInstr tac i with
      | true =>
          have hstep : dceStep (acc, u) i
              = (i :: acc, pushT (pushT u i.arg1) i.arg2) := by
            unfold dceStep
            rw [hcond, hk]
            rfl
          have hu2 : ∀ v, pyMem v (pushT (pushT u i.arg1) i.arg2) = pyMem v (used0 tac) :=
            pyMem_pushT_eq i.arg2 (pyMem_pushT_eq i.arg1 hu hargs.1) hargs.2
          have ht2 : ∀ w ∈ pushT (pushT u i.arg1) i.arg2, truthy w = true :=
            pushT_truthy _ (pushT_truthy _ ht)
          rw [List.foldl_cons, hstep, ih (i :: acc) _ hrest hu2 ht2]
          rw [List.reverse_cons, List.filter_append]
          simp [hk]
      | false =>
          have helif : (i.op == "ASSIGN" && pyMemO i.result u) = false := by
            cases hres : i.result with
            | none => simp [pyMemO]
            | some w =>
                cases hmem : pyMem w u with
                | false => simp [pyMemO, hres, hmem]
                | true =>
                    have hw : truthy w = true := pyMem_truthy ht hmem
                    have : keepInstr tac i = true := by
                      unfold keepInstr
                      rw [← pyMemO_congr_list hu, hres]
                      simp [truthyO, hw, pyMemO, hmem]
                    rw [this] at hk
                    cases hk
          have hstep : dceStep (acc, u) i = (acc, u) := by
            unfold dceStep
            rw [hcond, hk]
            simp only [Bool.false_eq_true, if_false]
            rw [helif]
            rfl
          rw [List.foldl_cons, hstep, ih acc u hrest hu ht]
          rw [List.reverse_cons, List.filter_append]
          simp [hk]

end TACOptimizer

/-- Claim C6 (corrected).  `dead_code_elimination` first makes a forward
pass that adds every truthy `arg1`/`arg2` of every instruction — whether
or not that instruction is later retained — plus the truthy `result` of
`GOTO`/`IF_FALSE` instructions to the use-set; the backward scan then
keeps exactly the control-flow instructions and the instructions whose
truthy result lies in that pre-collected set.  Because the use-set is
seeded from the whole sequence up front, the scan is a pure filter: an
assignment whose only consumer is itself eliminated in the same pass is
still retained (no cascading), and the additions made during the scan,
as well as its `elif` branch for `ASSIGN`, are observably inert. -/
theorem dead_code_elimination_is_filter (tac : List Instr) :
    TACOptimizer.dead_code_elimination tac
      = tac.filter (TACOptimizer.keepInstr tac) := by
  unfold TACOptimizer.dead_code_elimination
  rw [TACOptimizer.dce_fold tac tac.reverse [] (TACOptimizer.used0 tac)
    (fun i h => List.mem_reverse.mp h) (fun v => rfl) (TACOptimizer.used0_truthy tac)]
  simp

/-- Claim C6, counterexample: in `[t0 = 5; t1 = t0]` nothing uses `t1`,
so its assignment dies; but the assignment to `t0` is still kept, because
the use-set was seeded with `t0` by the (eliminated) second instruction —
the claimed cascading elimination does not happen. -/
theorem dead_code_elimination_counterexample :
    TACOptimizer.dead_code_elimination
      [{ op := "ASSIGN", arg1 := some (.vint 5), arg2 := none, result := some (.vstr "t0") },
       { op := "ASSIGN", arg1 := some (.vstr "t0"), arg2 := none, result := some (.vstr "t1") }] =
      [{ op := "ASSIGN", arg1 := some (.vint 5), arg2 := none, result := some (.vstr "t0") }] := rfl

/-! ## Claims C1 and C10: the TAC generator -/

namespace TACGenerator

theorem add_instruction_code (op : String) (a b r : Option Value) (st : GenSt) :
    (add_instruction op a b r st).tac_code
      = st.tac_code ++ [{ op := op, arg1 := a, arg2 := b, result := r }] := rfl

theorem new_string_label_code (v : String) (st : GenSt) :
    (new_string_label v st).2.tac_code = st.tac_code := by
  unfold new_string_label
  dsimp only
  split <;> rfl

theorem new_temp_code (st : GenSt) : (new_temp st).2.tac_code = st.tac_code := rfl

theorem new_label_code (st : GenSt) : (new_label st).2.tac_code = st.tac_code := rfl

/-- The instruction list of `st2` extends that of `st`: every visit
only appends. -/
def ExtCode (st st2 : GenSt) : Prop :=
  ∃ d, st2.tac_code = st.tac_code ++ d

theorem ExtCode.rfl {st : GenSt} : ExtCode st st := ⟨[], by simp⟩

theorem ExtCode.of_code_eq {st st2 st3 : GenSt} (h : st3.tac_code = st2.tac_code)
    (h2 : ExtCode st st2) : ExtCode st st3 := by
  obtain ⟨d, hd⟩ := h2
  exact ⟨d, by rw [h, hd]⟩

theorem ExtCode.chain {st st2 st3 : GenSt} (h1 : ExtCode st st2) (h2 : ExtCode st2 st3) :
    ExtCode st st3 := by
  obtain ⟨d1, hd1⟩ := h1
  obtain ⟨d2, hd2⟩ := h2
  exact ⟨d1 ++ d2, by rw [hd2, hd1, List.append_assoc]⟩

theorem ExtCode.add {st st2 : GenSt} (op : String) (a b r : Option Value)
    (h : ExtCode st st2) : ExtCode st (add_instruction op a b r st2) := by
  obtain ⟨d, hd⟩ := h
  exact ⟨d ++ [{ op := op, arg1 := a, arg2 := b, result := r }],
    by rw [add_instruction_code, hd, List.append_assoc]⟩

theorem ExtCode.temp {st st2 : GenSt} (h : ExtCode st st2) :
    ExtCode st (new_temp st2).2 :=
  .of_code_eq (new_temp_code st2) h

theorem ExtCode.label {st st2 : GenSt} (h : ExtCode st st2) :
    ExtCode st (new_label st2).2 :=
  .of_code_eq (new_label_code st2) h

/-- Every expression visit only appends to the instruction list. -/
theorem visitExpr_code (e : Expr) : ∀ st : GenSt, ExtCode st (visitExpr e st).2 := by
  induction e with
  | num v => intro st; exact .rfl
  | var n => intro st; exact .rfl
  | strLit v =>
      intro st
      exact .of_code_eq (new_string_label_code v st) .rfl
  | charLit v => intro st; exact .rfl
  | boolLit b => intro st; exact .rfl
  | un op e ih =>
      intro st
      rcases hre : visitExpr e st with ⟨r, st1⟩
      have h1 : ExtCode st st1 := by
        have := ih st
        rw [hre] at this
        exact this
      cases r with
      | none =>
          simp only [visitExpr, hre]
          exact h1.temp
      | some v =>
          simp only [visitExpr, hre]
          split
          · exact (h1.temp).add _ _ _ _
          · exact h1
  | bin op l r ihl ihr =>
      intro st
      rcases hrl : visitExpr l st with ⟨lv, st1⟩
      have h1 : ExtCode st st1 := by
        have := ihl st
        rw [hrl] at this
        exact this
      rcases hrr : visitExpr r st1 with ⟨rv, st2⟩
      have h2 : ExtCode st st2 := by
        have := ihr st1
        rw [hrr] at this
        exact h1.chain this
      cases lv with
      | none =>
          simp only [visitExpr, hrl, hrr]
          exact h2.temp
      | some a =>
          cases rv with
          | none =>
              simp only [visitExpr, hrl, hrr]
              exact h2.temp
          | some b =>
              simp only [visitExpr, hrl, hrr]
              split
              · split <;> exact (h2.temp).add _ _ _ _
              · split
                · exact (h2.temp).add _ _ _ _
                · split
                  · exact (h2.temp).add _ _ _ _
                  · split
                    · exact (h2.temp).add _ _ _ _
                    · exact h2.temp

theorem visitAsgn_code (a : Asgn) (st : GenSt) : ExtCode st (visitAsgn a st) := by
  rcases hre : visitExpr a.expr st with ⟨r, st1⟩
  have h1 : ExtCode st st1 := by
    have := visitExpr_code a.expr st
    rw [hre] at this
    exact this
  cases r with
  | none =>
      simp only [visitAsgn, hre]
      exact h1
  | some v =>
      simp only [visitAsgn, hre]
      exact h1.add _ _ _ _

theorem visitCond_code (c : Cond) (st : GenSt) : ExtCode st (visitCond c st).2 := by
  rcases hrl : visitExpr c.left st with ⟨lv, st1⟩
  have h1 : ExtCode st st1 := by
    have := visitExpr_code c.left st
    rw [hrl] at this
    exact this
  rcases hrr : visitExpr c.right st1 with ⟨rv, st2⟩
  have h2 : ExtCode st st2 := by
    have := visitExpr_code c.right st1
    rw [hrr] at this
    exact h1.chain this
  simp only [visitCond, hrl, hrr]
  exact h2

mutual

theorem visitStmt_code (s : Stmt) (st : GenSt) : ExtCode st (visitStmt s st) := by
  cases s with
  | decl t n ini => exact .rfl
  | assign a => exact visitAsgn_code a st
  | forL ini c upd body =>
      show ExtCode st (add_instruction "LABEL" _ none none
        (add_instruction "GOTO" _ none none
          (visitAsgn upd (visitStmts body _))))
      refine ExtCode.add _ _ _ _ (ExtCode.add _ _ _ _ ?_)
      refine ExtCode.chain ?_ (visitAsgn_code upd _)
      refine ExtCode.chain ?_ (visitStmts_code body _)
      refine ExtCode.add _ _ _ _ (ExtCode.add _ _ _ _ (ExtCode.add _ _ _ _ ?_))
      refine ExtCode.label (ExtCode.label ?_)
      refine ExtCode.chain ?_ (visitCond_code c _)
      refine ExtCode.add _ _ _ _ ?_
      exact ExtCode.label (visitAsgn_code ini st)

theorem visitStmts_code (l : List Stmt) (st : GenSt) : ExtCode st (visitStmts l st) := by
  cases l with
  | nil => exact .rfl
  | cons s rest =>
      show ExtCode st (visitStmts rest (visitStmt s st))
      exact ExtCode.chain (visitStmt_code s st) (visitStmts_code rest (visitStmt s st))

end

/-- The instructions a visit appends to the state it is given. -/
def emittedExpr (e : Expr) (st : GenSt) : List Instr :=
  ((visitExpr e st).2.tac_code).drop st.tac_code.length

def emittedAsgn (a : Asgn) (st : GenSt) : List Instr :=
  ((visitAsgn a st).tac_code).drop st.tac_code.length

def emittedCond (c : Cond) (st : GenSt) : List Instr :=
  ((visitCond c st).2.tac_code).drop st.tac_code.length

def emittedStmts (l : List Stmt) (st : GenSt) : List Instr :=
  ((visitStmts l st).tac_code).drop st.tac_code.length

theorem emittedAsgn_spec (a : Asgn) (st : GenSt) :
    (visitAsgn a st).tac_code = st.tac_code ++ emittedAsgn a st := by
  obtain ⟨d, hd⟩ := visitAsgn_code a st
  rw [emittedAsgn, hd, List.drop_left]

theorem emittedCond_spec (c : Cond) (st : GenSt) :
    (visitCond c st).2.tac_code = st.tac_code ++ emittedCond c st := by
  obtain ⟨d, hd⟩ := visitCond_code c st
  rw [emittedCond, hd, List.drop_left]

theorem emittedStmts_spec (l : List Stmt) (st : GenSt) :
    (visitStmts l st).tac_code = st.tac_code ++ emittedStmts l st := by
  obtain ⟨d, hd⟩ := visitStmts_code l st
  rw [emittedStmts, hd, List.drop_left]

/-- The intermediate states of `visit_ForLoop`, named for the shape
theorem: after the init assignment, the start label and its LABEL, the
condition operands, the body/after labels, and the three jump-scheme
instructions. -/
def forStart (ini : Asgn) (st : GenSt) : String :=
  (new_label (visitAsgn ini st)).1

def forLabSt (ini : Asgn) (st : GenSt) : GenSt :=
  add_instruction "LABEL" (some (.vstr (forStart ini st))) none none
    (new_label (visitAsgn ini st)).2

def forCondTriple (ini : Asgn) (c : Cond) (st : GenSt) :
    Option Value × String × Option Value :=
  (visitCond c (forLabSt ini st)).1

def forCondSt (ini : Asgn) (c : Cond) (st : GenSt) : GenSt :=
  (visitCond c (forLabSt ini st)).2

def forBodyLabel (ini : Asgn) (c : Cond) (st : GenSt) : String :=
  (new_label (forCondSt ini c st)).1

def forAfterLabel (ini : Asgn) (c : Cond) (st : GenSt) : String :=
  (new_label (new_label (forCondSt ini c st)).2).1

def forBodySt (ini : Asgn) (c : Cond) (st : GenSt) : GenSt :=
  add_instruction "LABEL" (some (.vstr (forBodyLabel ini c st))) none none
    (add_instruction "GOTO" (some (.vstr (forAfterLabel ini c st))) none none
      (add_instruction ("IF_" ++ c.op) (forCondTriple ini c st).1 (forCondTriple ini c st).2.2
        (some (.vstr (forBodyLabel ini c st)))
        (new_label (new_label (forCondSt ini c st)).2).2))

end TACGenerator

/-- The for-loop of the spec scenario, as the AST node
`for(i=0;i<3;i=i+1){x=x+1;}` parses to (literal values are the token
lexeme strings). -/
def scenarioForProg : List Stmt :=
  [.forL ⟨"i", .num "0"⟩ ⟨.var "i", "<", .num "3"⟩
     ⟨"i", .bin "+" (.var "i") (.num "1")⟩
     [.assign ⟨"x", .bin "+" (.var "x") (.num "1")⟩]]

/-- The eleven instructions the generator emits for that loop. -/
def scenarioForTac : List Instr :=
  [{ op := "ASSIGN", arg1 := some (.vstr "0"), arg2 := none, result := some (.vstr "i") },
   { op := "LABEL", arg1 := some (.vstr "L0"), arg2 := none, result := none },
   { op := "IF_<", arg1 := some (.vstr "i"), arg2 := some (.vstr "3"), result := some (.vstr "L1") },
   { op := "GOTO", arg1 := some (.vstr "L2"), arg2 := none, result := none },
   { op := "LABEL", arg1 := some (.vstr "L1"), arg2 := none, result := none },
   { op := "ADD", arg1 := some (.vstr "x"), arg2 := some (.vstr "1"), result := some (.vstr "t0") },
   { op := "ASSIGN", arg1 := some (.vstr "t0"), arg2 := none, result := some (.vstr "x") },
   { op := "ADD", arg1 := some (.vstr "i"), arg2 := some (.vstr "1"), result := some (.vstr "t1") },
   { op := "ASSIGN", arg1 := some (.vstr "t1"), arg2 := none, result := some (.vstr "i") },
   { op := "GOTO", arg1 := some (.vstr "L0"), arg2 := none, result := none },
   { op := "LABEL", arg1 := some (.vstr "L2"), arg2 := none, result := none }]

/-- Claim C1 (corrected).  For every for-loop node and every generator
state, `visit_ForLoop` emits: the init instructions, `LABEL start`, the
condition-operand instructions, a single conditional jump
`IF_<relop> left, right -> body` (no boolean temporary, no `IF_FALSE`),
an unconditional `GOTO after` as the loop exit, `LABEL body`, the body
instructions, the update instructions, `GOTO start`, `LABEL after`.  On
the scenario loop this gives exactly 3 LABEL instructions (`L0, L1, L2`),
one conditional jump whose target is the body label `L1`, and 2
unconditional GOTOs (`GOTO L2` for the exit and the loop-back
`GOTO L0`). -/
theorem visit_ForLoop_lowering :
    (∀ (ini : Asgn) (c : Cond) (upd : Asgn) (body : List Stmt) (st : TACGenerator.GenSt),
      (TACGenerator.visitStmt (.forL ini c upd body) st).tac_code =
        st.tac_code
        ++ TACGenerator.emittedAsgn ini st
        ++ [{ op := "LABEL", arg1 := some (.vstr (TACGenerator.forStart ini st)),
              arg2 := none, result := none }]
        ++ TACGenerator.emittedCond c (TACGenerator.forLabSt ini st)
        ++ [{ op := "IF_" ++ c.op, arg1 := (TACGenerator.forCondTriple ini c st).1,
              arg2 := (TACGenerator.forCondTriple ini c st).2.2,
              result := some (.vstr (TACGenerator.forBodyLabel ini c st)) },
            { op := "GOTO", arg1 := some (.vstr (TACGenerator.forAfterLabel ini c st)),
              arg2 := none, result := none },
            { op := "LABEL", arg1 := some (.vstr (TACGenerator.forBodyLabel ini c st)),
              arg2 := none, result := none }]
        ++ TACGenerator.emittedStmts body (TACGenerator.forBodySt ini c st)
        ++ TACGenerator.emittedAsgn upd
            (TACGenerator.visitStmts body (TACGenerator.forBodySt ini c st))
        ++ [{ op := "GOTO", arg1 := some (.vstr (TACGenerator.forStart ini st)),
              arg2 := none, result := none },
            { op := "LABEL", arg1 := some (.vstr (TACGenerator.forAfterLabel ini c st)),
              arg2 := none, result := none }])
    ∧ TACGenerator.generate scenarioForProg = (scenarioForTac, [])
    ∧ scenarioForTac.countP (fun i => i.op == "LABEL") = 3
    ∧ scenarioForTac.countP (fun i => i.op == "GOTO") = 2
    ∧ scenarioForTac.countP (fun i => i.op == "IF_<") = 1
    ∧ scenarioForTac.get? 2
        = some ⟨"IF_<", some (.vstr "i"), some (.vstr "3"), some (.vstr "L1")⟩ := by
  refine ⟨?_, rfl, rfl, rfl, rfl, rfl⟩
  intro ini c upd body st
  show (TACGenerator.add_instruction "LABEL"
          (some (.vstr (TACGenerator.forAfterLabel ini c st))) none none
          (TACGenerator.add_instruction "GOTO"
            (some (.vstr (TACGenerator.forStart ini st))) none none
            (TACGenerator.visitAsgn upd
              (TACGenerator.visitStmts body (TACGenerator.forBodySt ini c st))))).tac_code = _
  rw [TACGenerator.add_instruction_code, TACGenerator.add_instruction_code,
    TACGenerator.emittedAsgn_spec, TACGenerator.emittedStmts_spec]
  show (TACGenerator.forBodySt ini c st).tac_code ++ _ ++ _ ++ _ ++ _ = _
  rw [show (TACGenerator.forBodySt ini c st).tac_code
        = (TACGenerator.forCondSt ini c st).tac_code
          ++ [{ op := "IF_" ++ c.op, arg1 := (TACGenerator.forCondTriple ini c st).1,
                arg2 := (TACGenerator.forCondTriple ini c st).2.2,
                result := some (.vstr (TACGenerator.forBodyLabel ini c st)) },
              { op := "GOTO", arg1 := some (.vstr (TACGenerator.forAfterLabel ini c st)),
                arg2 := none, result := none },
              { op := "LABEL", arg1 := some (.vstr (TACGenerator.forBodyLabel ini c st)),
                arg2 := none, result := none }] from by
      simp [TACGenerator.forBodySt, TACGenerator.add_instruction_code,
        TACGenerator.new_label_code, List.append_assoc]]
  rw [show (TACGenerator.forCondSt ini c st).tac_code
        = (TACGenerator.forLabSt ini st).tac_code
          ++ TACGenerator.emittedCond c (TACGenerator.forLabSt ini st) from
      TACGenerator.emittedCond_spec c (TACGenerator.forLabSt ini st)]
  rw [show (TACGenerator.forLabSt ini st).tac_code
        = (TACGenerator.visitAsgn ini st).tac_code
          ++ [{ op := "LABEL", arg1 := some (.vstr (TACGenerator.forStart ini st)),
                arg2 := none, result := none }] from by
      simp [TACGenerator.forLabSt, TACGenerator.add_instruction_code,
        TACGenerator.new_label_code]]
  rw [TACGenerator.emittedAsgn_spec ini st]
  simp [List.append_assoc]

namespace TACGenerator

/-- An `IF_<relop>` opcode can collide with neither `GOTO` nor `LABEL`. -/
theorem if_op_ne (op : String) : ("IF_" ++ op ≠ "GOTO") ∧ ("IF_" ++ op ≠ "LABEL") := by
  constructor <;>
    · intro h
      have hd := congrArg String.data h
      simp at hd

/-- The invariant of claim C10 on one instruction. -/
def shapeOk (i : Instr) : Prop :=
  (i.op = "GOTO" ∨ i.op = "LABEL") →
    (∃ l, i.arg1 = some (.vstr l)) ∧ i.arg2 = none ∧ i.result = none

theorem shapeOk_of_ne {op : String} {a b r : Option Value}
    (h1 : op ≠ "GOTO") (h2 : op ≠ "LABEL") :
    shapeOk { op := op, arg1 := a, arg2 := b, result := r } := by
  rintro (h | h)
  · exact absurd h h1
  · exact absurd h h2

theorem shapeOk_label (l : String) :
    shapeOk { op := "LABEL", arg1 := some (.vstr l), arg2 := none, result := none } :=
  fun _ => ⟨⟨l, rfl⟩, rfl, rfl⟩

theorem shapeOk_goto (l : String) :
    shapeOk { op := "GOTO", arg1 := some (.vstr l), arg2 := none, result := none } :=
  fun _ => ⟨⟨l, rfl⟩, rfl, rfl⟩

/-- The invariant over a whole generator state. -/
def codeOk (st : GenSt) : Prop := ∀ i ∈ st.tac_code, shapeOk i

theorem codeOk_add {st : GenSt} (h : codeOk st) {op : String} {a b r : Option Value}
    (hi : shapeOk { op := op, arg1 := a, arg2 := b, result := r }) :
    codeOk (add_instruction op a b r st) := by
  intro i hm
  rw [show (add_instruction op a b r st).tac_code
      = st.tac_code ++ [{ op := op, arg1 := a, arg2 := b, result := r }] from rfl] at hm
  rcases List.mem_append.mp hm with h1 | h2
  · exact h i h1
  · rw [List.mem_singleton.mp h2]
    exact hi

theorem codeOk_temp {st : GenSt} (h : codeOk st) : codeOk (new_temp st).2 := by
  intro i hm
  rw [new_temp_code] at hm
  exact h i hm

theorem codeOk_label {st : GenSt} (h : codeOk st) : codeOk (new_label st).2 := by
  intro i hm
  rw [new_label_code] at hm
  exact h i hm

theorem codeOk_str {v : String} {st : GenSt} (h : codeOk st) :
    codeOk (new_string_label v st).2 := by
  intro i hm
  rw [new_string_label_code] at hm
  exact h i hm

theorem visitExpr_codeOk (e : Expr) : ∀ st : GenSt,
    codeOk st → codeOk (visitExpr e st).2 := by
  induction e with
  | num v => intro st h; exact h
  | var n => intro st h; exact h
  | strLit v => intro st h; exact codeOk_str h
  | charLit v => intro st h; exact h
  | boolLit b => intro st h; exact h
  | un op e ih =>
      intro st h
      rcases hre : visitExpr e st with ⟨r, st1⟩
      have h1 : codeOk st1 := by
        have := ih st h
        rw [hre] at this
        exact this
      cases r with
      | none =>
          simp only [visitExpr, hre]
          exact codeOk_temp h1
      | some v =>
          simp only [visitExpr, hre]
          split
          · exact codeOk_add (codeOk_temp h1) (shapeOk_of_ne (by decide) (by decide))
          · exact h1
  | bin op l r ihl ihr =>
      intro st h
      rcases hrl : visitExpr l st with ⟨lv, st1⟩
      have h1 : codeOk st1 := by
        have := ihl st h
        rw [hrl] at this
        exact this
      rcases hrr : visitExpr r st1 with ⟨rv, st2⟩
      have h2 : codeOk st2 := by
        have := ihr st1 h1
        rw [hrr] at this
        exact this
      cases lv with
      | none =>
          simp only [visitExpr, hrl, hrr]
          exact codeOk_temp h2
      | some a =>
          cases rv with
          | none =>
              simp only [visitExpr, hrl, hrr]
              exact codeOk_temp h2
          | some b =>
              simp only [visitExpr, hrl, hrr]
              split
              · split <;>
                  exact codeOk_add (codeOk_temp h2) (shapeOk_of_ne (by decide) (by decide))
              · split
                · exact codeOk_add (codeOk_temp h2) (shapeOk_of_ne (by decide) (by decide))
                · split
                  · exact codeOk_add (codeOk_temp h2) (shapeOk_of_ne (by decide) (by decide))
                  · split
                    · exact codeOk_add (codeOk_temp h2) (shapeOk_of_ne (by decide) (by decide))
                    · exact codeOk_temp h2

theorem visitAsgn_codeOk (a : Asgn) (st : GenSt) (h : codeOk st) :
    codeOk (visitAsgn a st) := by
  rcases hre : visitExpr a.expr st with ⟨r, st1⟩
  have h1 : codeOk st1 := by
    have := visitExpr_codeOk a.expr st h
    rw [hre] at this
    exact this
  cases r with
  | none =>
      simp only [visitAsgn, hre]
      exact h1
  | some v =>
      simp only [visitAsgn, hre]
      exact codeOk_add h1 (shapeOk_of_ne (by decide) (by decide))

theorem visitCond_codeOk (c : Cond) (st : GenSt) (h : codeOk st) :
    codeOk (visitCond c st).2 := by
  rcases hrl : visitExpr c.left st with ⟨lv, st1⟩
  have h1 : codeOk st1 := by
    have := visitExpr_codeOk c.left st h
    rw [hrl] at this
    exact this
  rcases hrr : visitExpr c.right st1 with ⟨rv, st2⟩
  have h2 : codeOk st2 := by
    have := visitExpr_codeOk c.right st1 h1
    rw [hrr] at this
    exact this
  simp only [visitCond, hrl, hrr]
  exact h2

mutual

theorem visitStmt_codeOk (s : Stmt) (st : GenSt) (h : codeOk st) :
    codeOk (visitStmt s st) := by
  cases s with
  | decl t n ini => exact h
  | assign a => exact visitAsgn_codeOk a st h
  | forL ini c upd body =>
      refine codeOk_add (codeOk_add ?_ (shapeOk_goto _)) (shapeOk_label _)
      refine visitAsgn_codeOk upd _ ?_
      refine visitStmts_codeOk body _ ?_
      refine codeOk_add (codeOk_add (codeOk_add ?_
        (shapeOk_of_ne (if_op_ne c.op).1 (if_op_ne c.op).2)) (shapeOk_goto _)) (shapeOk_label _)
      refine codeOk_label (codeOk_label ?_)
      refine visitCond_codeOk c _ ?_
      refine codeOk_add (codeOk_label ?_) (shapeOk_label _)
      exact visitAsgn_codeOk ini st h

theorem visitStmts_codeOk (l : List Stmt) (st : GenSt) (h : codeOk st) :
    codeOk (visitStmts l st) := by
  cases l with
  | nil => exact h
  | cons s rest =>
      show codeOk (visitStmts rest (visitStmt s st))
      exact visitStmts_codeOk rest (visitStmt s st) (visitStmt_codeOk s st h)

end

end TACGenerator

/-- Claim C10 (confirmed).  Every `GOTO` and `LABEL` instruction the
generator emits carries its target/label name (a string) in `arg1`, with
`arg2` and `result` both `None` — an invariant the consumers get wrong:
the dead-code pass seeds jump targets from the `result` field and the
renderer prints GOTO/LABEL operands from `result`. -/
theorem generate_goto_label_in_arg1 (prog : List Stmt) :
    ∀ i ∈ (TACGenerator.generate prog).1, (i.op = "GOTO" ∨ i.op = "LABEL") →
      (∃ l, i.arg1 = some (.vstr l)) ∧ i.arg2 = none ∧ i.result = none := by
  intro i hi hor
  have h0 : TACGenerator.codeOk {} := by
    intro j hj
    have he : (({} : TACGenerator.GenSt)).tac_code = [] := rfl
    rw [he] at hj
    cases hj
  exact TACGenerator.visitStmts_codeOk prog {} h0 i hi hor

/-- Witness for C10: the exit jump `GOTO L2` of the scenario loop. -/
theorem generate_goto_label_in_arg1_witness :
    ((⟨"GOTO", some (.vstr "L2"), none, none⟩ : Instr)
        ∈ (TACGenerator.generate scenarioForProg).1)
    ∧ (∃ l, (⟨"GOTO", some (.vstr "L2"), none, none⟩ : Instr).arg1 = some (.vstr l))
    ∧ (⟨"GOTO", some (.vstr "L2"), none, none⟩ : Instr).arg2 = none
    ∧ (⟨"GOTO", some (.vstr "L2"), none, none⟩ : Instr).result = none := by
  have hm : (⟨"GOTO", some (.vstr "L2"), none, none⟩ : Instr)
      ∈ (TACGenerator.generate scenarioForProg).1 := by decide
  have h := generate_goto_label_in_arg1 scenarioForProg _ hm (Or.inl rfl)
  exact ⟨hm, h.1, h.2.1, h.2.2⟩

/-- Claim C1, counterexample: the generated loop contains no `IF_FALSE`
at all (the conditional exit the claim requires does not exist), and
there are 3 jump instructions, not 2: `IF_<` into the body plus two
GOTOs. -/
theorem forLoop_no_if_false :
    (TACGenerator.generate scenarioForProg).1.filter (fun i => i.op == "IF_FALSE") = []
    ∧ (TACGenerator.generate scenarioForProg).1.countP
        (fun i => i.op == "GOTO" || i.op == "IF_FALSE" || i.op == "IF_<") = 3 :=
  ⟨rfl, rfl⟩

/-! ## Claims about the lexer -/

/-- Claim C8 (corrected).  In the alternation of `token_specification`
the single-character OP class is listed before `EQ` and `LE`, so at any
position, with any left context and any following text, `==` and `<=`
are matched as a one-character OP token (`=` resp. `<`), while `!=` and
`>=` (whose first character is outside the OP class) are matched as the
single two-character tokens NE resp. GE; consequently `a==b` lexes to
four tokens and `a!=b` to three. -/
theorem relop_first_match :
    (∀ (prev : Option Char) (rest : List Char),
        Lexer.matchTok prev ('=' :: '=' :: rest) = some ("OP", "=", '=' :: rest)
      ∧ Lexer.matchTok prev ('<' :: '=' :: rest) = some ("OP", "<", '=' :: rest)
      ∧ Lexer.matchTok prev ('!' :: '=' :: rest) = some ("NE", "!=", rest)
      ∧ Lexer.matchTok prev ('>' :: '=' :: rest) = some ("GE", ">=", rest))
    ∧ Lexer.tokenize "a==b" = .ok [("ID", "a"), ("OP", "="), ("OP", "="), ("ID", "b")]
    ∧ Lexer.tokenize "a!=b" = .ok [("ID", "a"), ("NE", "!="), ("ID", "b")] := by
  refine ⟨fun prev rest => ⟨?_, ?_, ?_, ?_⟩, rfl, rfl⟩ <;>
    simp [Lexer.matchTok, Lexer.matchKeyword, Lexer.kwAt, Lexer.matchId,
      Lexer.matchConstant, Lexer.matchPair, Lexer.opChar, Lexer.idStart,
      Lexer.boundary, Lexer.isWordO, Lexer.wordChar] <;> rfl

/-- Claim C8, counterexample: the two-character operator `<=` in `x<=y`
does not yield a single relational token; it yields the two
one-character OP tokens `<` and `=`. -/
theorem relop_counterexample :
    Lexer.tokenize "x<=y" = .ok [("ID", "x"), ("OP", "<"), ("OP", "="), ("ID", "y")] := by
  rfl

/-- Claim C9 (corrected).  When no pattern matches at the current
position, `tokenize` raises immediately, with the message
`Unexpected character: <c>` — the character only, with no line or
column — and yields no tokens (the raise discards the accumulator). -/
theorem lex_error_immediate (n : Nat) (acc : List Lexer.Token) (prev : Option Char)
    (c : Char) (rest : List Char) (h : Lexer.matchTok prev (c :: rest) = none) :
    Lexer.tokenizeAux (n + 1) acc prev (c :: rest) =
      .error ("Unexpected character: " ++ c.toString) := by
  simp [Lexer.tokenizeAux, h]

/-- Witness for C9 at the unmatched character `@`. -/
theorem lex_error_immediate_witness :
    Lexer.matchTok none ['@'] = none
    ∧ Lexer.tokenizeAux 1 [] none ['@'] = .error "Unexpected character: @" :=
  ⟨rfl, lex_error_immediate 0 [] none '@' [] rfl⟩

/-- Claim C9, counterexample: the message the source raises for `@`
carries no line and column, unlike the form the claim states. -/
theorem lex_error_no_position :
    Lexer.tokenize "@" = .error "Unexpected character: @"
    ∧ ("Unexpected character: @" : String) ≠ "Unexpected character: @ at line 1, column 1" :=
  ⟨rfl, by decide⟩

/-! ## Claim C4: the `int x; x = 2 + 3;` scenario -/

/-- The token list `tokenize` actually produces for the scenario source. -/
def scenarioTokens : List Lexer.Token :=
  [("KEYWORD", "int"), ("ID", "x"), ("SYMBOL", ";"), ("ID", "x"), ("OP", "="),
   ("CONSTANT", "2"), ("OP", "+"), ("CONSTANT", "3"), ("SYMBOL", ";")]

/-- The AST the specification describes for the scenario
(`Program{body:[Declaration{int,x}, Assignment{x, 2+3}]}`, literal values
stored as the parser stores them: the token lexemes). -/
def scenarioAst : List Stmt :=
  [.decl "int" "x" none, .assign ⟨"x", .bin "+" (.num "2") (.num "3")⟩]

/-- The TAC the generator emits for that AST. -/
def scenarioTac : List Instr :=
  [{ op := "ADD", arg1 := some (.vstr "2"), arg2 := some (.vstr "3"), result := some (.vstr "t0") },
   { op := "ASSIGN", arg1 := some (.vstr "t0"), arg2 := none, result := some (.vstr "x") }]

/-- Claim C4, counterexample: tokenization of the scenario source does
not produce the claimed kinds — `=` is an OP token (there is no ASSIGN
kind) and the numbers are CONSTANT tokens (there is no NUMBER kind). -/
theorem scenario_tokens_counterexample :
    Lexer.tokenize "int x; x = 2 + 3;" = .ok scenarioTokens
    ∧ scenarioTokens ≠
      [("KEYWORD", "int"), ("ID", "x"), ("SYMBOL", ";"), ("ID", "x"), ("ASSIGN", "="),
       ("NUMBER", "2"), ("OP", "+"), ("NUMBER", "3"), ("SYMBOL", ";")] :=
  ⟨rfl, by decide⟩

/-- Claim C4 (corrected).  What the pipeline actually does on the
scenario: tokenization yields OP/CONSTANT kinds; the parser rejects that
token list (it requires an ASSIGN token); on the specified AST the
generator emits `[ADD t0,2,3][ASSIGN x,t0]` with the literal operands as
strings, so constant folding leaves the sequence unchanged, and the full
`optimize` returns `[ADD t0,2,3]` alone: dead-code elimination drops the
assignment to the never-read `x` but keeps the ADD, whose result `t0`
is in the pre-collected use-set. -/
theorem scenario_int_x_chain :
    Lexer.tokenize "int x; x = 2 + 3;" = .ok scenarioTokens
    ∧ SyntaxAnalyzer.parse scenarioTokens =
        .error "Expected '=' (ASSIGN) but found '=' (OP) at position 4"
    ∧ TACGenerator.generate scenarioAst = (scenarioTac, [])
    ∧ TACOptimizer.constant_folding scenarioTac = .ok scenarioTac
    ∧ TACOptimizer.optimize scenarioTac =
        .ok [{ op := "ADD", arg1 := some (.vstr "2"), arg2 := some (.vstr "3"),
               result := some (.vstr "t0") }] :=
  ⟨rfl, rfl, rfl, rfl, rfl⟩

/-! ## Claim C7: redeclaration diagnostics -/

namespace SemanticAnalyzer

/-- Number of `already declared` diagnostics for the name `x`. -/
def countAD (x : String) (l : List SemErr) : Nat :=
  l.countP (fun e => decide (e = .alreadyDeclared x))

/-- The declared type recorded in the table for a name. -/
def lookupType (tbl : List (String × SEntry)) (n : String) : Option String :=
  (lookupEntry tbl n).map (fun e => e.type)

mutual

/-- The types of the (well-formed) declarations of `x` inside one
statement, in visit order; a declaration with an empty type string is
rejected as an invalid node before the redeclaration check and is not
counted. -/
def declTypesS : Stmt → String → List String
  | .decl t n _, x => if n == x && t != "" then [t] else []
  | .assign _, _ => []
  | .forL _ _ _ body, x => declTypes body x

/-- The declarations of `x` in a statement list, loop bodies included. -/
def declTypes : List Stmt → String → List String
  | [], _ => []
  | s :: rest, x => declTypesS s x ++ declTypes rest x

end

/-- What one declaration of `x` (with type `t`) does to the projection
(`x` declared?, recorded type of `x`, count of already-declared
diagnostics for `x`): a redeclaration only appends one diagnostic; a
first declaration records the type when it is supported and is otherwise
rejected without touching the table. -/
def declStep (p : Bool × Option String × Nat) (t : String) : Bool × Option String × Nat :=
  if p.1 then (true, p.2.1, p.2.2 + 1)
  else if supported_types.contains t then (true, some t, p.2.2)
  else p

/-- The observable state of the analyzer relevant to claim C7. -/
def projTriple (x : String) (st : ASt) : Bool × Option String × Nat :=
  (st.declared_vars.contains x, lookupType st.symbol_table x, countAD x st.errors)

theorem countAD_append (x : String) (l1 l2 : List SemErr) :
    countAD x (l1 ++ l2) = countAD x l1 + countAD x l2 :=
  List.countP_append _ _ _

theorem countAD_eq_zero {x : String} {l : List SemErr}
    (h : SemErr.alreadyDeclared x ∉ l) : countAD x l = 0 := by
  apply List.countP_eq_zero.mpr
  intro e he
  simp only [decide_eq_true_eq]
  intro hcontra
  rw [hcontra] at he
  exact h he

/-- Observational equality for statement visits that cannot declare. -/
def ESame (x : String) (st st2 : ASt) : Prop :=
  st2.symbol_table = st.symbol_table
  ∧ st2.declared_vars = st.declared_vars
  ∧ countAD x st2.errors = countAD x st.errors

theorem ESame.refl {x : String} {st : ASt} : ESame x st st := ⟨rfl, rfl, rfl⟩

theorem ESame.trans {x : String} {st st2 st3 : ASt}
    (h1 : ESame x st st2) (h2 : ESame x st2 st3) : ESame x st st3 :=
  ⟨h2.1.trans h1.1, h2.2.1.trans h1.2.1, h2.2.2.trans h1.2.2⟩

theorem ESame.addErr {x : String} {st : ASt} {e : SemErr}
    (h : e ≠ .alreadyDeclared x) : ESame x st (addErr st e) := by
  refine ⟨rfl, rfl, ?_⟩
  show countAD x (st.errors ++ [e]) = countAD x st.errors
  have hne : SemErr.alreadyDeclared x ∉ [e] := by
    intro hm
    rw [List.mem_singleton] at hm
    exact h hm.symm
  rw [countAD_append, countAD_eq_zero hne]
  simp

theorem ESame.addErrs {x : String} {st : ASt} {es : List SemErr}
    (h : SemErr.alreadyDeclared x ∉ es) : ESame x st (addErrs st es) := by
  refine ⟨rfl, rfl, ?_⟩
  show countAD x (st.errors ++ es) = countAD x st.errors
  rw [countAD_append, countAD_eq_zero h]
  simp

/-- The error lists `get_expression_type` appends never contain an
already-declared diagnostic. -/
theorem charTypeOf_no_ad (x v : String) :
    SemErr.alreadyDeclared x ∉ (charTypeOf v).2 := by
  simp only [charTypeOf]
  split
  · simp
  · split
    · simp
    · split
      · split <;> simp
      · simp

theorem getExprType_no_ad (x : String) (tbl : List (String × SEntry)) (e : Expr) :
    SemErr.alreadyDeclared x ∉ (getExprType tbl e).2 := by
  induction e with
  | num v =>
      unfold getExprType
      split <;> (split <;> simp)
  | var n => simp [getExprType]
  | strLit v => simp [getExprType]
  | charLit v => exact charTypeOf_no_ad x v
  | boolLit b => simp [getExprType]
  | un op e ih =>
      unfold getExprType
      rcases hre : getExprType tbl e with ⟨t, es⟩
      rw [hre] at ih
      dsimp only
      split <;> exact ih
  | bin op l r ihl ihr =>
      unfold getExprType
      rcases hrl : getExprType tbl l with ⟨lt, e1⟩
      rcases hrr : getExprType tbl r with ⟨rt, e2⟩
      rw [hrl] at ihl
      rw [hrr] at ihr
      dsimp only
      intro hmem
      have hm2 : SemErr.alreadyDeclared x ∈ e1 ++ e2 := by
        revert hmem
        split
        · exact fun h => h
        · split
          · split
            · exact fun h => h
            · split <;> exact fun h => h
          · split
            · split <;> exact fun h => h
            · exact fun h => h
      rcases List.mem_append.mp hm2 with h | h
      · exact ihl h
      · exact ihr h

theorem ite_addErr_esame {x : String} {st st2 : ASt} {c : Prop} [Decidable c]
    {e : SemErr} (h : ESame x st st2) (he : e ≠ .alreadyDeclared x) :
    ESame x st (if c then addErr st2 e else st2) := by
  split
  · exact h.trans (.addErr he)
  · exact h

theorem charLitVisit_esame (x : String) (st : ASt) (v : String) :
    ESame x st (charLitVisit st v) := by
  simp only [charLitVisit]
  split
  · exact .addErr (by simp)
  · split
    · exact .addErr (by simp)
    · split
      · split
        · exact .addErr (by simp)
        · exact .refl
      · exact .refl

/-- Visiting an expression can only append diagnostics, and none of them
is an already-declared diagnostic; the table and declared-name set are
untouched. -/
theorem semVisitExpr_esame (x : String) (e : Expr) : ∀ st : ASt,
    ESame x st (semVisitExpr st e) := by
  induction e with
  | num v => intro st; exact .refl
  | var n =>
      intro st
      simp only [semVisitExpr]
      split
      · exact .refl
      · exact .addErr (by simp)
  | strLit v => intro st; exact .refl
  | charLit v => intro st; exact charLitVisit_esame x st v
  | boolLit b => intro st; exact .refl
  | un op e ih =>
      intro st
      simp only [semVisitExpr]
      have h2 : ESame x st
          (addErrs (semVisitExpr st e)
            (getExprType (semVisitExpr st e).symbol_table e).2) :=
        (ih st).trans (.addErrs (getExprType_no_ad x _ e))
      split
      · split
        · exact h2
        · exact h2.trans (.addErr (by simp))
      · exact h2.trans (.addErr (by simp))
  | bin op l r ihl ihr =>
      intro st
      simp only [semVisitExpr]
      have h2 : ESame x st (semVisitExpr (semVisitExpr st l) r) :=
        (ihl st).trans (ihr (semVisitExpr st l))
      have h3 : ESame x st
          (addErrs (semVisitExpr (semVisitExpr st l) r)
            (getExprType (semVisitExpr (semVisitExpr st l) r).symbol_table l).2) :=
        h2.trans (.addErrs (getExprType_no_ad x _ l))
      have h4 : ESame x st
          (addErrs
            (addErrs (semVisitExpr (semVisitExpr st l) r)
              (getExprType (semVisitExpr (semVisitExpr st l) r).symbol_table l).2)
            (getExprType
              (addErrs (semVisitExpr (semVisitExpr st l) r)
                (getExprType (semVisitExpr (semVisitExpr st l) r).symbol_table l).2).symbol_table
              r).2) :=
        h3.trans (.addErrs (getExprType_no_ad x _ r))
      split
      · split
        · -- op == "+"
          split
          · exact h4
          · exact h4.trans (.addErr (by simp))
        · split
          · -- op is one of -, *, /
            split
            · -- op == "/": the literal-zero check on the right operand
              split
              all_goals try exact ite_addErr_esame h4 (by simp)
              split
              all_goals try exact ite_addErr_esame h4 (by simp)
              split
              · exact (ite_addErr_esame h4 (by simp)).trans (.addErr (by simp))
              · exact ite_addErr_esame h4 (by simp)
            · exact ite_addErr_esame h4 (by simp)
          · exact h4.trans (.addErr (by simp))
      · exact h4

/-! Table lemmas: updates that keep the `type` field keep `lookupType`,
and `tableSet` records the new entry's type exactly at its key. -/

theorem lookupType_cons (k : String) (en : SEntry)
    (rest : List (String × SEntry)) (m : String) :
    lookupType ((k, en) :: rest) m
      = if (k == m) = true then some en.type else lookupType rest m := by
  by_cases hk : (k == m) = true
  · rw [if_pos hk]
    simp only [lookupType, lookupEntry]
    rw [List.find?_cons_of_pos rest hk]
    rfl
  · rw [if_neg hk]
    simp only [lookupType, lookupEntry]
    rw [List.find?_cons_of_neg rest hk]

theorem tableUpdate_cons (k : String) (en : SEntry)
    (rest : List (String × SEntry)) (n : String) (f : SEntry → SEntry) :
    tableUpdate ((k, en) :: rest) n f
      = (if (k == n) = true then (k, f en) else (k, en)) :: tableUpdate rest n f := rfl

theorem lookupType_tableUpdate (tbl : List (String × SEntry)) (n : String)
    (f : SEntry → SEntry) (hf : ∀ en, (f en).type = en.type) (m : String) :
    lookupType (tableUpdate tbl n f) m = lookupType tbl m := by
  induction tbl with
  | nil => rfl
  | cons p rest ih =>
      rcases p with ⟨k, en⟩
      rw [tableUpdate_cons]
      by_cases hkn : (k == n) = true
      · rw [if_pos hkn, lookupType_cons, lookupType_cons, hf, ih]
      · rw [if_neg hkn, lookupType_cons, lookupType_cons, ih]

theorem lookupType_tableSet_self (tbl : List (String × SEntry)) (n : String)
    (e : SEntry) : lookupType (tableSet tbl n e) n = some e.type := by
  unfold tableSet
  split
  · rename_i h
    revert h
    induction tbl with
    | nil => intro h; simp at h
    | cons p rest ih =>
        intro h
        rcases p with ⟨k, en⟩
        by_cases hk : (k == n) = true
        · simp only [List.map_cons]
          rw [if_pos hk, lookupType_cons, if_pos hk]
        · simp only [List.map_cons]
          rw [if_neg hk, lookupType_cons, if_neg hk]
          refine ih ?_
          rw [List.find?_cons_of_neg rest (by simp [hk])] at h
          exact h
  · rename_i h
    revert h
    induction tbl with
    | nil =>
        intro h
        rw [List.nil_append, lookupType_cons, if_pos (by simp)]
    | cons p rest ih =>
        intro h
        rcases p with ⟨k, en⟩
        have hk : (k == n) = false := by
          by_contra hc
          simp only [Bool.not_eq_false] at hc
          exact h (by rw [List.find?_cons_of_pos rest hc]; rfl)
        rw [List.cons_append, lookupType_cons, if_neg (by simp [hk])]
        refine ih ?_
        intro h2
        refine h ?_
        rw [List.find?_cons_of_neg rest (by simp [hk])]
        exact h2

theorem lookupType_tableSet_ne (tbl : List (String × SEntry)) (n : String)
    (e : SEntry) (m : String) (hm : m ≠ n) :
    lookupType (tableSet tbl n e) m = lookupType tbl m := by
  have hnm : (n == m) = false := by
    by_contra hc
    simp only [Bool.not_eq_false, beq_iff_eq] at hc
    exact hm hc.symm
  unfold tableSet
  split
  · rename_i h
    clear h
    induction tbl with
    | nil => rfl
    | cons p rest ih =>
        rcases p with ⟨k, en⟩
        by_cases hkn : (k == n) = true
        · have hk : k = n := by simpa using hkn
          have hpm : (k == m) = false := by rw [hk]; exact hnm
          simp only [List.map_cons]
          rw [if_pos hkn, lookupType_cons, if_neg (by simp [hpm]),
              lookupType_cons, if_neg (by simp [hpm])]
          exact ih
        · simp only [List.map_cons]
          rw [if_neg hkn, lookupType_cons, lookupType_cons]
          by_cases hpm : (k == m) = true
          · rw [if_pos hpm, if_pos hpm]
          · rw [if_neg hpm, if_neg hpm]
            exact ih
  · rename_i h
    clear h
    induction tbl with
    | nil =>
        rw [List.nil_append, lookupType_cons, if_neg (by simp [hnm])]
    | cons p rest ih =>
        rcases p with ⟨k, en⟩
        rw [List.cons_append, lookupType_cons, lookupType_cons]
        by_cases hpm : (k == m) = true
        · rw [if_pos hpm, if_pos hpm]
        · rw [if_neg hpm, if_neg hpm]
          exact ih

/-! Membership of the declared-name list under one append. -/

theorem contains_append_ne (dv : List String) {n x : String} (h : n ≠ x) :
    (dv ++ [n]).contains x = dv.contains x := by
  have hx : x ≠ n := fun hc => h hc.symm
  simp [hx]

theorem contains_append_self (dv : List String) (x : String) :
    (dv ++ [x]).contains x = true := by
  simp

/-! The projection-preservation relation used for assignment and
condition visits: such visits keep the recorded type of `x`, the
declared-name list, and the already-declared count for `x`. -/

def PSame (x : String) (st st2 : ASt) : Prop :=
  lookupType st2.symbol_table x = lookupType st.symbol_table x
  ∧ st2.declared_vars = st.declared_vars
  ∧ countAD x st2.errors = countAD x st.errors

theorem psame_trans {x : String} {st st2 st3 : ASt}
    (h1 : PSame x st st2) (h2 : PSame x st2 st3) : PSame x st st3 :=
  ⟨h2.1.trans h1.1, h2.2.1.trans h1.2.1, h2.2.2.trans h1.2.2⟩

theorem ESame.toPSame {x : String} {st st2 : ASt} (h : ESame x st st2) :
    PSame x st st2 := ⟨by rw [h.1], h.2.1, h.2.2⟩

theorem psame_addErr {x : String} {st st2 : ASt} {e : SemErr}
    (h : PSame x st st2) (he : e ≠ .alreadyDeclared x) :
    PSame x st (addErr st2 e) := psame_trans h (ESame.addErr he).toPSame

theorem psame_ite_addErr {x : String} {st st2 : ASt} {c : Prop} [Decidable c]
    {e : SemErr} (h : PSame x st st2) (he : e ≠ .alreadyDeclared x) :
    PSame x st (if c then addErr st2 e else st2) := by
  split
  · exact psame_addErr h he
  · exact h

theorem psame_mk_tupd {x : String} {st : ASt} {tbl : List (String × SEntry)}
    {er : List SemErr} {dv : List String} {k : Nat}
    (h : PSame x st ⟨tbl, er, dv, k⟩) (n : String) (f : SEntry → SEntry)
    (hf : ∀ en, (f en).type = en.type) :
    PSame x st ⟨tableUpdate tbl n f, er, dv, k⟩ :=
  ⟨(lookupType_tableUpdate tbl n f hf x).trans h.1, h.2.1, h.2.2⟩

theorem psame_mk_adderr {x : String} {st : ASt} {tbl : List (String × SEntry)}
    {er : List SemErr} {dv : List String} {k : Nat} {e : SemErr}
    (h : PSame x st ⟨tbl, er, dv, k⟩) (he : e ≠ .alreadyDeclared x) :
    PSame x st ⟨tbl, er ++ [e], dv, k⟩ := by
  have h1 : SemErr.alreadyDeclared x ∉ [e] := by
    intro hm
    rw [List.mem_singleton] at hm
    exact he hm.symm
  refine ⟨h.1, h.2.1, ?_⟩
  have h2 := h.2.2
  show countAD x (er ++ [e]) = countAD x st.errors
  rw [countAD_append, countAD_eq_zero h1]
  simpa using h2

theorem PSame.proj {x : String} {st st2 : ASt} (h : PSame x st st2) :
    projTriple x st2 = projTriple x st := by
  rcases h with ⟨h1, h2, h3⟩
  simp [projTriple, h1, h2, h3]

/-- The literal-extraction step of `visit_Assignment` never touches the
table or declared names and appends at most a char-format diagnostic. -/
theorem assignedValueOf_esame (x : String) (st : ASt) (n : String) (e : Expr) :
    ESame x st (assignedValueOf st n e).2 := by
  cases e with
  | num s => exact .refl
  | var m => exact .refl
  | strLit s => exact .refl
  | charLit s =>
      simp only [assignedValueOf]
      split
      · split
        · exact .refl
        · exact .refl
      · exact .addErr (by simp)
  | boolLit b => exact .refl
  | un op e2 => exact .refl
  | bin op l r => exact .refl

/-- `visit_Assignment` preserves the C7 projection: it never declares,
never emits an already-declared diagnostic, and its table updates keep
every entry's `type` field. -/
theorem semVisitAsgn_psame (x : String) (a : Asgn) (st : ASt) :
    PSame x st (semVisitAsgn st a) := by
  simp only [semVisitAsgn]
  split
  · exact (ESame.addErr (by simp)).toPSame
  · split
    · exact ((show ESame x st (addErr st (.notDeclaredBeforeAssignment a.var)) from
          .addErr (by simp)).trans
        (semVisitExpr_esame x a.expr (addErr st (.notDeclaredBeforeAssignment a.var)))).toPSame
    · have hq : PSame x st
          (assignedValueOf
            (addErrs (semVisitExpr st a.expr)
              (getExprType (semVisitExpr st a.expr).symbol_table a.expr).2)
            a.var a.expr).2 :=
        (((semVisitExpr_esame x a.expr st).trans
            (ESame.addErrs
              (getExprType_no_ad x (semVisitExpr st a.expr).symbol_table a.expr))).trans
          (assignedValueOf_esame x
            (addErrs (semVisitExpr st a.expr)
              (getExprType (semVisitExpr st a.expr).symbol_table a.expr).2)
            a.var a.expr)).toPSame
      split
      · -- the expression type is known
        split
        · -- a literal value was extracted
          split
          · refine psame_mk_tupd ?_ _ _ ?_
            · refine psame_mk_tupd ?_ _ _ ?_
              · exact psame_ite_addErr hq (by simp)
              · exact fun en => rfl
            · exact fun en => rfl
          · dsimp only [addErr]
            refine psame_mk_tupd ?_ _ _ ?_
            · refine psame_mk_adderr ?_ ?_
              · refine psame_mk_tupd ?_ _ _ ?_
                · exact psame_ite_addErr hq (by simp)
                · exact fun en => rfl
              · simp
            · exact fun en => rfl
        · refine psame_mk_tupd ?_ _ _ ?_
          · refine psame_mk_tupd ?_ _ _ ?_
            · exact psame_ite_addErr hq (by simp)
            · exact fun en => rfl
          · exact fun en => rfl
      · refine psame_mk_tupd ?_ _ _ ?_
        · exact hq
        · exact fun en => rfl

/-- `visit_Condition` only appends diagnostics, none of them
already-declared. -/
theorem semVisitCond_esame (x : String) (c : Cond) (st : ASt) :
    ESame x st (semVisitCond st c) := by
  simp only [semVisitCond]
  have h2 : ESame x st (semVisitExpr (semVisitExpr st c.left) c.right) :=
    (semVisitExpr_esame x c.left st).trans
      (semVisitExpr_esame x c.right (semVisitExpr st c.left))
  have h3 : ESame x st
      (addErrs (semVisitExpr (semVisitExpr st c.left) c.right)
        (getExprType (semVisitExpr (semVisitExpr st c.left) c.right).symbol_table
          c.left).2) :=
    h2.trans (.addErrs (getExprType_no_ad x
      (semVisitExpr (semVisitExpr st c.left) c.right).symbol_table c.left))
  have h4 : ESame x st
      (addErrs
        (addErrs (semVisitExpr (semVisitExpr st c.left) c.right)
          (getExprType (semVisitExpr (semVisitExpr st c.left) c.right).symbol_table
            c.left).2)
        (getExprType
          (addErrs (semVisitExpr (semVisitExpr st c.left) c.right)
            (getExprType
              (semVisitExpr (semVisitExpr st c.left) c.right).symbol_table
              c.left).2).symbol_table c.right).2) :=
    h3.trans (.addErrs (getExprType_no_ad x
      (addErrs (semVisitExpr (semVisitExpr st c.left) c.right)
        (getExprType (semVisitExpr (semVisitExpr st c.left) c.right).symbol_table
          c.left).2).symbol_table c.right))
  split
  · exact ite_addErr_esame h4 (by simp)
  · exact h4

theorem countAD_single_self (x : String) :
    countAD x [.alreadyDeclared x] = 1 := by
  simp [countAD]

/-- One declaration visit acts on the C7 projection exactly as
`declStep` on the declared types of `x`, for any non-empty `x`. -/
theorem declProj (x : String) (hx : x ≠ "") (t n : String) (i : Option Expr)
    (st : ASt) :
    projTriple x (semVisitStmt st (.decl t n i))
      = (declTypesS (.decl t n i) x).foldl declStep (projTriple x st) := by
  simp only [semVisitStmt]
  by_cases hnx : (n == x) = true
  · have hn : n = x := by simpa using hnx
    subst hn
    by_cases ht : (t == "") = true
    · have ht2 : t = "" := by simpa using ht
      rw [show declTypesS (.decl t n i) n = [] from by simp [declTypesS, ht2],
          List.foldl_nil,
          if_pos (show (n == "" || t == "") = true from by simp [ht2])]
      simp [projTriple, addErr, countAD, List.countP_append, List.countP_cons,
        List.countP_nil]
    · have ht2 : t ≠ "" := by simpa using ht
      rw [show declTypesS (.decl t n i) n = [t] from by simp [declTypesS, ht2],
          List.foldl_cons, List.foldl_nil,
          if_neg (show ¬(n == "" || t == "") = true from by simp [hx, ht2])]
      by_cases hc : st.declared_vars.contains n = true
      · have hc2 : n ∈ st.declared_vars := by simpa using hc
        rw [if_pos hc]
        simp [projTriple, declStep, addErr, hc2, countAD, List.countP_append,
          List.countP_cons, List.countP_nil]
      · have hc2 : n ∉ st.declared_vars := by simpa using hc
        rw [if_neg hc]
        by_cases hs : supported_types.contains t = true
        · have hs2 : t ∈ supported_types := by simpa using hs
          rw [if_neg (show ¬(!supported_types.contains t) = true from by simp [hs2])]
          simp [projTriple, declStep, hc2, hs2, contains_append_self,
            lookupType_tableSet_self]
        · have hs2 : t ∉ supported_types := by simpa using hs
          rw [if_pos (show (!supported_types.contains t) = true from by simp [hs2])]
          simp [projTriple, declStep, addErr, hc2, hs2, countAD, List.countP_append,
            List.countP_cons, List.countP_nil]
  · have hnx2 : n ≠ x := by simpa using hnx
    rw [show declTypesS (.decl t n i) x = [] from by simp [declTypesS, hnx],
        List.foldl_nil]
    by_cases h0 : (n == "" || t == "") = true
    · rw [if_pos h0]
      simp [projTriple, addErr, countAD, List.countP_append, List.countP_cons,
        List.countP_nil]
    · rw [if_neg h0]
      by_cases hc : st.declared_vars.contains n = true
      · rw [if_pos hc]
        simp [projTriple, addErr, countAD, List.countP_append, List.countP_cons,
          List.countP_nil, hnx2]
      · rw [if_neg hc]
        by_cases hs : supported_types.contains t = true
        · have hs2 : t ∈ supported_types := by simpa using hs
          rw [if_neg (show ¬(!supported_types.contains t) = true from by simp [hs2])]
          simp [projTriple, contains_append_ne _ hnx2,
            lookupType_tableSet_ne _ _ _ _ (fun hc3 => hnx2 hc3.symm)]
          intro h
          exact absurd h.symm hnx2
        · have hs2 : t ∉ supported_types := by simpa using hs
          rw [if_pos (show (!supported_types.contains t) = true from by simp [hs2])]
          simp [projTriple, addErr, countAD, List.countP_append, List.countP_cons,
            List.countP_nil]

theorem projTriple_scope (x : String) (st : ASt) (k : Nat) :
    projTriple x { st with current_scope_level := k } = projTriple x st := rfl

mutual

/-- Visiting one statement transforms the C7 projection by folding
`declStep` over the declarations of `x` inside it. -/
theorem semVisitStmt_proj (x : String) (hx : x ≠ "") (s : Stmt) (st : ASt) :
    projTriple x (semVisitStmt st s)
      = (declTypesS s x).foldl declStep (projTriple x st) := by
  cases s with
  | decl t n i => exact declProj x hx t n i st
  | assign a =>
      simp only [semVisitStmt, declTypesS, List.foldl_nil]
      exact (semVisitAsgn_psame x a st).proj
  | forL ini c upd body =>
      simp only [semVisitStmt, declTypesS]
      have h3 : PSame x st
          (semVisitAsgn
            (semVisitCond
              (semVisitAsgn { st with current_scope_level := st.current_scope_level + 1 } ini)
              c)
            upd) :=
        psame_trans
          (psame_trans
            (psame_trans
              (show PSame x st { st with current_scope_level := st.current_scope_level + 1 } from
                ⟨rfl, rfl, rfl⟩)
              (semVisitAsgn_psame x ini
                { st with current_scope_level := st.current_scope_level + 1 }))
            ((semVisitCond_esame x c
              (semVisitAsgn { st with current_scope_level := st.current_scope_level + 1 } ini)).toPSame))
          (semVisitAsgn_psame x upd
            (semVisitCond
              (semVisitAsgn { st with current_scope_level := st.current_scope_level + 1 } ini)
              c))
      rw [projTriple_scope,
          semVisitStmts_proj x hx body
            (semVisitAsgn
              (semVisitCond
                (semVisitAsgn { st with current_scope_level := st.current_scope_level + 1 } ini)
                c)
              upd),
          h3.proj]

/-- Visiting a statement list folds `declStep` over all declarations of
`x` in it, loop bodies included. -/
theorem semVisitStmts_proj (x : String) (hx : x ≠ "") (l : List Stmt) (st : ASt) :
    projTriple x (semVisitStmts st l)
      = (declTypes l x).foldl declStep (projTriple x st) := by
  cases l with
  | nil => simp [semVisitStmts, declTypes]
  | cons s rest =>
      simp only [semVisitStmts, declTypes, List.foldl_append]
      rw [semVisitStmts_proj x hx rest (semVisitStmt st s),
          semVisitStmt_proj x hx s st]

end

end SemanticAnalyzer

/-- Claim C7 (confirmed): for every program in which the identifier `x`
(a non-empty name) is reached by exactly two well-formed declaration
visits — regardless of lexical or loop nesting, since `declTypes`
collects declarations through `for`-loop bodies — with the first
declaration's type supported, `SemanticAnalyzer.analyze` emits exactly
one already-declared diagnostic for `x`, and the symbol table entry for
`x` retains the first declaration's type: the later declaration never
overwrites it. -/
theorem redeclaration_single_diagnostic (prog : List Stmt) (x t1 t2 : String)
    (hx : x ≠ "")
    (hd : SemanticAnalyzer.declTypes prog x = [t1, t2])
    (h1 : SemanticAnalyzer.supported_types.contains t1 = true) :
    SemanticAnalyzer.countAD x (SemanticAnalyzer.analyze prog).2 = 1
    ∧ SemanticAnalyzer.lookupType (SemanticAnalyzer.analyze prog).1 x
        = some t1 := by
  have h1m : t1 ∈ SemanticAnalyzer.supported_types := by simpa using h1
  have hfold := SemanticAnalyzer.semVisitStmts_proj x hx prog {}
  rw [hd] at hfold
  have hinit : SemanticAnalyzer.projTriple x ({} : SemanticAnalyzer.ASt)
      = (false, none, 0) := rfl
  rw [hinit, List.foldl_cons, List.foldl_cons, List.foldl_nil] at hfold
  have hs1 : SemanticAnalyzer.declStep (false, none, 0) t1 = (true, some t1, 0) := by
    simp [SemanticAnalyzer.declStep, h1m]
  have hs2 : SemanticAnalyzer.declStep (true, some t1, 0) t2 = (true, some t1, 1) := by
    simp [SemanticAnalyzer.declStep]
  rw [hs1, hs2] at hfold
  constructor
  · have h3 := congrArg (fun p => p.2.2) hfold
    simpa [SemanticAnalyzer.projTriple, SemanticAnalyzer.analyze] using h3
  · have h3 := congrArg (fun p => p.2.1) hfold
    simpa [SemanticAnalyzer.projTriple, SemanticAnalyzer.analyze] using h3

/-- Witness for C7: `int x; float x;` yields one already-declared
diagnostic for `x` and the table keeps type `int`. -/
theorem redeclaration_single_diagnostic_witness :
    "x" ≠ ""
    ∧ SemanticAnalyzer.declTypes
        [.decl "int" "x" none, .decl "float" "x" none] "x" = ["int", "float"]
    ∧ SemanticAnalyzer.supported_types.contains "int" = true
    ∧ SemanticAnalyzer.countAD "x"
        (SemanticAnalyzer.analyze [.decl "int" "x" none, .decl "float" "x" none]).2 = 1
    ∧ SemanticAnalyzer.lookupType
        (SemanticAnalyzer.analyze [.decl "int" "x" none, .decl "float" "x" none]).1 "x"
        = some "int" := by
  refine ⟨by decide, by decide, by decide, ?_⟩
  exact redeclaration_single_diagnostic
    [.decl "int" "x" none, .decl "float" "x" none] "x" "int" "float"
    (by decide) (by decide) (by decide)

end Compiler
